import Mathlib

/-!
# OpenIPMI simulator core: console, registry, channels, lock, timers

A shallow embedding of parts of `lanserv/ipmi_sim.c` (the console line editor
with its Telnet negotiation sub-machine, the console registry, the reactor
callbacks of the LAN and serial channels and of the console listener, the
periodic tick) and of
`unix/posix_thread_os_hnd.c` (the reentrant lock, the timer wrappers, the
timed condition wait and the reactor registration), followed by theorems
about them.

Conventions of the embedding:

* a byte (`unsigned char`, or one `char` of a buffer) is a `Nat` below 256;
* `unsigned int` fields are `Nat`; an increment that is not guarded by a bound
  in the source is taken modulo `2^32`;
* signed C integers (`int`, `time_t`, `suseconds_t`) are `Int`; the deadline
  arithmetic of `start_timer` is also given with 64-bit wrap-around
  (`start_timer_long`), the two agree while the sums stay in range;
* C arrays are lists of the declared length; a store through an index past the
  end (undefined in C) leaves the list unchanged;
* calls that leave the program (`write`, `ipmi_emu_cmd`, `ipmi_log`, system
  and reactor calls, protocol handlers) are recorded, in order, as events or
  log lines returned next to the new state; results of calls into the platform
  (`accept`, `malloc`, `read`, `recvfrom`, `errno`) are arguments;
* a pointer to a console record is a `Nat` address, 0 for `NULL`.
-/

namespace OpenIPMI

/-! ## Console session (`lanserv/ipmi_sim.c`) -/

/-- Telnet "interpret as command" byte, `#define TN_IAC 255`. -/
def TN_IAC : Nat := 255
/-- Telnet WILL, `#define TN_WILL 251`. -/
def TN_WILL : Nat := 251
/-- Telnet WONT, `#define TN_WONT 252`. -/
def TN_WONT : Nat := 252
/-- Telnet DO, `#define TN_DO 253`. -/
def TN_DO : Nat := 253
/-- Telnet DONT, `#define TN_DONT 254`. -/
def TN_DONT : Nat := 254
/-- Telnet option code, `#define TN_OPT_SUPPRESS_GO_AHEAD 3`. -/
def TN_OPT_SUPPRESS_GO_AHEAD : Nat := 3
/-- Telnet option code, `#define TN_OPT_ECHO 1`. -/
def TN_OPT_ECHO : Nat := 1

/-- The fields of `console_info_t` that the character handlers read or write.
`buffer` is `char buffer[1024]`, `tn_buf` is `unsigned char tn_buf[4]`; the
registry links, the reactor id and the back pointer to the simulator data are
not touched by `handle_telnet` and `handle_user_char` and are left out. -/
structure console_info where
  buffer : List Nat
  pos : Nat
  telnet : Int
  echo : Int
  shutdown_on_close : Int
  outfd : Int
  tn_pos : Nat
  tn_buf : List Nat
deriving DecidableEq, Repr

/-- What a character handler does to the outside world: a `write(fd, bytes)` on
the output descriptor of the session, or a call of the command interpreter
`ipmi_emu_cmd` with the C string it is given. -/
inductive ConsoleEvent where
  | write (fd : Int) (bytes : List Nat)
  | emu_cmd (text : List Nat)
deriving DecidableEq, Repr

/-- The bytes of a string literal of the source. -/
def str_bytes (s : String) : List Nat := s.toList.map Char.toNat

/-- The C string stored at the start of a `char` array: the bytes before the
first NUL. This is what `strcmp` and `ipmi_emu_cmd` see of `info->buffer`. -/
def c_string (buf : List Nat) : List Nat := buf.takeWhile (fun b => b != 0)

/-- Label `cmd_done` of `handle_telnet`: `info->tn_pos = 0; return 0;`. -/
def handle_telnet_cmd_done (info : console_info) (ev : List ConsoleEvent) :
    Nat × console_info × List ConsoleEvent :=
  (0, { info with tn_pos := 0 }, ev)

/-- Label `send_wont` of `handle_telnet`: overwrite the command byte with WONT,
write the three buffered bytes, go to `cmd_done`. -/
def handle_telnet_send_wont (info : console_info) :
    Nat × console_info × List ConsoleEvent :=
  let info1 := { info with tn_buf := info.tn_buf.set 1 TN_WONT }
  handle_telnet_cmd_done info1 [ConsoleEvent.write info1.outfd (info1.tn_buf.take 3)]

/-- Label `send_dont` of `handle_telnet`: overwrite the command byte with DONT,
write the three buffered bytes, go to `cmd_done`. -/
def handle_telnet_send_dont (info : console_info) :
    Nat × console_info × List ConsoleEvent :=
  let info1 := { info with tn_buf := info.tn_buf.set 1 TN_DONT }
  handle_telnet_cmd_done info1 [ConsoleEvent.write info1.outfd (info1.tn_buf.take 3)]

/-- The function `handle_telnet(info, c)`: returns the byte handed back to
`handle_user_char`, the new session and the writes performed. The statements
are those of the source in the source order; after the suboption bookkeeping
(`tn_buf[2] = tn_buf[3]; tn_pos--;`) control falls into the label `send_wont`,
as it does in the source. -/
def handle_telnet (info : console_info) (c : Nat) :
    Nat × console_info × List ConsoleEvent :=
  let info1 := { info with
    tn_buf := info.tn_buf.set info.tn_pos c,
    tn_pos := (info.tn_pos + 1) % 4294967296 }
  if info1.tn_pos = 2 ∧ info1.tn_buf.getD 1 0 = TN_IAC then
    (TN_IAC, info1, [])
  else if info1.tn_pos = 2 ∧ info1.tn_buf.getD 1 0 < 250 then
    handle_telnet_cmd_done info1 []
  else if info1.tn_pos = 3 ∧ info1.tn_buf.getD 1 0 ≠ 250 then
    if info1.tn_buf.getD 1 0 = TN_WILL then
      handle_telnet_send_dont info1
    else if info1.tn_buf.getD 1 0 = TN_WONT then
      handle_telnet_cmd_done info1 []
    else if info1.tn_buf.getD 1 0 = TN_DO then
      if info1.tn_buf.getD 2 0 = TN_OPT_ECHO
          ∨ info1.tn_buf.getD 2 0 = TN_OPT_SUPPRESS_GO_AHEAD then
        handle_telnet_cmd_done info1 []
      else
        handle_telnet_send_wont info1
    else
      handle_telnet_cmd_done info1 []
  else if info1.tn_pos < 4 then
    (0, info1, [])
  else if info1.tn_buf.getD 2 0 = TN_IAC ∧ info1.tn_buf.getD 3 0 = 240 then
    handle_telnet_cmd_done info1 []
  else
    let info2 := { info1 with
      tn_buf := info1.tn_buf.set 2 (info1.tn_buf.getD 3 0),
      tn_pos := info1.tn_pos - 1 }
    handle_telnet_send_wont info2

/-- The notice written when the line is full; the source writes the format
string itself, `%d` included, with `write`. -/
def too_long_msg : List Nat :=
  str_bytes "\nCommand is too long, max of %d characters\n"

/-- The sentinel command that switches local echo off, `"noecho"`. -/
def noecho_cmd : List Nat := [110, 111, 101, 99, 104, 111]

/-- Label `handle_char` (the `default` case) of `handle_user_char`: append the
byte unless the line already holds `sizeof(info->buffer) - 1 = 1023` bytes. -/
def handle_user_char_handle_char (info : console_info) (c : Nat)
    (ev : List ConsoleEvent) : Int × console_info × List ConsoleEvent :=
  if info.pos ≥ 1023 then
    (0, info, ev ++ [ConsoleEvent.write info.outfd too_long_msg])
  else
    (0, { info with buffer := info.buffer.set info.pos c, pos := info.pos + 1 },
      ev ++ (if info.echo ≠ 0 then [ConsoleEvent.write info.outfd [c]] else []))

/-- The function `handle_user_char(info, c)`: returns the return value (1 asks
the caller to close the session), the new session and the events, in order. -/
def handle_user_char (info : console_info) (c : Nat) :
    Int × console_info × List ConsoleEvent :=
  let r := if info.tn_pos ≠ 0 then handle_telnet info c else (c, info, [])
  let c1 := r.1
  let info1 := r.2.1
  let ev := r.2.2
  if c1 = 0 then
    (0, info1, ev)
  else if c1 = TN_IAC then
    if info1.telnet ≠ 0 then
      (0, { info1 with tn_buf := info1.tn_buf.set 0 c1, tn_pos := 1 }, ev)
    else
      handle_user_char_handle_char info1 c1 ev
  else if c1 = 8 ∨ c1 = 127 then
    if info1.pos > 0 then
      (0, { info1 with pos := info1.pos - 1 },
        ev ++ (if info1.echo ≠ 0 then [ConsoleEvent.write info1.outfd [8, 32, 8]] else []))
    else
      (0, info1, ev)
  else if c1 = 4 then
    if info1.pos = 0 then
      (1, info1, ev ++ (if info1.echo ≠ 0 then [ConsoleEvent.write info1.outfd [10]] else []))
    else
      (0, info1, ev)
  else if c1 = 10 ∨ c1 = 13 then
    let ev1 :=
      if info1.echo ≠ 0 then
        [ConsoleEvent.write info1.outfd [10]]
          ++ (if info1.telnet ≠ 0 then [ConsoleEvent.write info1.outfd [13]] else [])
      else []
    let buffer2 := info1.buffer.set info1.pos 0
    let is_noecho : Bool := decide (c_string buffer2 = noecho_cmd)
    let echo2 : Int := if is_noecho then 0 else info1.echo
    let ev2 := if is_noecho then [] else [ConsoleEvent.emu_cmd (c_string buffer2)]
    let ev3 := if echo2 ≠ 0 then [ConsoleEvent.write info1.outfd [62, 32]] else []
    (0, { info1 with buffer := buffer2, echo := echo2, pos := 0 }, ev ++ ev1 ++ ev2 ++ ev3)
  else
    handle_user_char_handle_char info1 c1 ev

/-- The read loop of `user_data_ready`: hand the received bytes to
`handle_user_char` one by one and stop at the first nonzero return (`goto
closeit`). Returns the last return value, the session and all events. -/
def user_data_loop (info : console_info) :
    List Nat → Int × console_info × List ConsoleEvent
  | [] => (0, info, [])
  | c :: cs =>
    let r := handle_user_char info c
    if r.1 ≠ 0 then r
    else
      let r2 := user_data_loop r.2.1 cs
      (r2.1, r2.2.1, r.2.2 ++ r2.2.2)

/-- A console session as `console_bind_ready` sets it up for an accepted
connection on descriptor `fd`: `pos = 0`, `echo = 1`, `telnet = 1`,
`tn_pos = 0`; the arrays come from `malloc` and hold whatever `buf` and `tn`
say. -/
def new_console (fd : Int) (buf tn : List Nat) : console_info :=
  { buffer := buf, pos := 0, telnet := 1, echo := 1, shutdown_on_close := 0,
    outfd := fd, tn_pos := 0, tn_buf := tn }

/-- A sample freshly accepted Telnet session on descriptor 5 with zeroed
arrays. -/
def sample_console : console_info :=
  new_console 5 (List.replicate 1024 0) [0, 0, 0, 0]

/-! ## Reentrant lock (`unix/posix_thread_os_hnd.c`) -/

/-- The platform mutex behind a lock (`pthread_mutex_t`, initialised with
default attributes). `holder` is the thread that holds it, if any; `nlock` and
`nunlock` count the acquisitions and releases performed so far and exist only
so that theorems can say how often the mutex was touched. -/
structure pthread_mutex where
  holder : Option Nat
  nlock : Nat
  nunlock : Nat
deriving DecidableEq, Repr

/-- The errno value `EPERM` of the platform headers. -/
def EPERM : Int := 1

/-- POSIX `pthread_mutex_lock` for thread `self`: a free mutex is acquired and
0 is returned; on a held mutex the caller blocks, which is the result `none`
(no return). -/
def pthread_mutex_lock (m : pthread_mutex) (self : Nat) : Option (Int × pthread_mutex) :=
  match m.holder with
  | none => some (0, { m with holder := some self, nlock := m.nlock + 1 })
  | some _ => none

/-- POSIX `pthread_mutex_unlock` for thread `self`: the holder releases the
mutex and gets 0. POSIX leaves the call by a thread that does not hold a
default mutex undefined; the model takes the error-checking behaviour (`EPERM`,
mutex unchanged). -/
def pthread_mutex_unlock (m : pthread_mutex) (self : Nat) : Int × pthread_mutex :=
  if m.holder = some self then
    (0, { m with holder := none, nunlock := m.nunlock + 1 })
  else
    (EPERM, m)

/-- The record `struct os_hnd_lock_s`; `owner` is a thread id (`pthread_t`). -/
structure os_hnd_lock where
  mutex : pthread_mutex
  lock_count : Int
  owner : Nat
deriving DecidableEq, Repr

/-- One record handed to `ipmi_log`; this file only logs with
`IPMI_LOG_FATAL`. The call `ipmi_log` is a reporting call that returns to its
caller: the statements after it are executed. -/
inductive LogRecord where
  | fatal (msg : String)
deriving DecidableEq, Repr

/-- The function `lock(handler, id)` run by thread `self` (`pthread_self()`).
`none` means the call blocks in `pthread_mutex_lock`. -/
def lock (self : Nat) (id : os_hnd_lock) : Option (Int × os_hnd_lock) :=
  if id.lock_count = 0 ∨ self ≠ id.owner then
    match pthread_mutex_lock id.mutex self with
    | none => none
    | some (rv, m) =>
      if rv ≠ 0 then
        some (rv, { id with mutex := m })
      else
        some (0, { id with mutex := m, owner := self, lock_count := id.lock_count + 1 })
  else
    some (0, { id with owner := self, lock_count := id.lock_count + 1 })

/-- The function `unlock(handler, id)` run by thread `self`: the two checks
only log, then the count is decremented; when it reaches zero the mutex is
released, and the decrement is undone if that release fails. -/
def unlock (self : Nat) (id : os_hnd_lock) : Int × os_hnd_lock × List LogRecord :=
  let log1 := if id.lock_count = 0 then [LogRecord.fatal "lock count went negative"] else []
  let log2 := if self ≠ id.owner then [LogRecord.fatal "lock release by non-owner"] else []
  let id1 := { id with lock_count := id.lock_count - 1 }
  if id1.lock_count = 0 then
    let r := pthread_mutex_unlock id1.mutex self
    if r.1 ≠ 0 then
      (r.1, { id1 with mutex := r.2, lock_count := id1.lock_count + 1 }, log1 ++ log2)
    else
      (0, { id1 with mutex := r.2 }, log1 ++ log2)
  else
    (0, id1, log1 ++ log2)

/-- Thread `self` calls `lock` `n` times in a row; the return values are
collected. `none` as soon as one call blocks. -/
def lock_n (self : Nat) : Nat → os_hnd_lock → Option (List Int × os_hnd_lock)
  | 0, id => some ([], id)
  | n + 1, id =>
    match lock self id with
    | none => none
    | some (rv, id1) =>
      match lock_n self n id1 with
      | none => none
      | some (rvs, id2) => some (rv :: rvs, id2)

/-- Thread `self` calls `unlock` `n` times in a row; the return values and the
log records are collected. -/
def unlock_n (self : Nat) : Nat → os_hnd_lock → List Int × os_hnd_lock × List LogRecord
  | 0, id => ([], id, [])
  | n + 1, id =>
    let r := unlock self id
    let r2 := unlock_n self n r.2.1
    (r.1 :: r2.1, r2.2.1, r.2.2 ++ r2.2.2)

/-- A lock as `create_lock` leaves it: mutex free, `lock_count = 0`; the owner
field is not initialised and holds whatever `o` says. -/
def new_lock (o : Nat) : os_hnd_lock :=
  { mutex := { holder := none, nlock := 0, nunlock := 0 }, lock_count := 0, owner := o }

/-! ## Timers (`unix/posix_thread_os_hnd.c`) -/

/-- The record `struct timeval`. -/
structure timeval where
  tv_sec : Int
  tv_usec : Int
deriving DecidableEq, Repr

/-- The record `struct os_hnd_timer_id_s`. The callback and its context are
opaque pointers, kept as numbers; `timer` is the state of the selector timer
the handle points to, of a type `σ` owned by the selector. -/
structure os_hnd_timer_id (σ : Type) where
  cb_data : Nat
  timed_out : Nat
  timer : σ
  running : Int
deriving DecidableEq, Repr

/-- The errno value `EBUSY` of the platform headers. -/
def EBUSY : Int := 16

/-- The carry loop of `start_timer`:
`while (now.tv_usec >= 1000000) { now.tv_usec -= 1000000; now.tv_sec += 1; }`. -/
def start_timer_loop (sec usec : Int) : Int × Int :=
  if 1000000 ≤ usec then start_timer_loop (sec + 1) (usec - 1000000) else (sec, usec)
termination_by usec.toNat
decreasing_by omega

/-- The function `start_timer(handler, id, timeout, timed_out, cb_data)`.
`now` is what `gettimeofday` returns; `sel_start_timer` is the selector call
(its code is not in this file), given the selector timer and the deadline and
returning its result and the new selector timer. The sums are exact integer
sums: this is the source as long as no sum leaves the range of `time_t` and
`suseconds_t`; `start_timer_long` below has the arithmetic of these types and
agrees with this function on that range. -/
def start_timer {σ : Type} (sel_start_timer : σ → timeval → Int × σ) (now : timeval)
    (id : os_hnd_timer_id σ) (timeout : timeval) (timed_out cb_data : Nat) :
    Int × os_hnd_timer_id σ :=
  if id.running ≠ 0 then
    (EBUSY, id)
  else
    let id1 := { id with running := 1, cb_data := cb_data, timed_out := timed_out }
    let d := start_timer_loop (now.tv_sec + timeout.tv_sec) (now.tv_usec + timeout.tv_usec)
    let r := sel_start_timer id1.timer { tv_sec := d.1, tv_usec := d.2 }
    (r.1, { id1 with timer := r.2 })

/-- The function `stop_timer(handler, timer_data)`: it only forwards to the
selector call `sel_stop_timer`. -/
def stop_timer {σ : Type} (sel_stop_timer : σ → Int × σ) (timer_data : os_hnd_timer_id σ) :
    Int × os_hnd_timer_id σ :=
  let r := sel_stop_timer timer_data.timer
  (r.1, { timer_data with timer := r.2 })

/-- The function `timer_handler(sel, timer, data)`, run by the selector when
the timer expires: it clears `running` and then calls the stored callback.
Returns the callback and context that are invoked, and the handle as the
callback receives it. -/
def timer_handler {σ : Type} (timer_data : os_hnd_timer_id σ) :
    (Nat × Nat) × os_hnd_timer_id σ :=
  ((timer_data.timed_out, timer_data.cb_data), { timer_data with running := 0 })

/-- The value that a signed 64-bit field (`long`, the type behind `time_t` and
`suseconds_t` on the platform) holds after an addition whose exact result is
`x`: `x` itself when it is in the range from -2^63 to 2^63 - 1, and otherwise
`x` reduced modulo 2^64 into that range, which is what the compiled code does
(the C standard leaves the overflow undefined). -/
def wrap_long (x : Int) : Int :=
  (x + 9223372036854775808) % 18446744073709551616 - 9223372036854775808

/-- The carry loop of `start_timer` with the arithmetic of the field types:
`now.tv_sec += 1` is a 64-bit addition; `now.tv_usec -= 1000000` is taken from
a value of at least 1000000 and cannot leave the range. -/
def start_timer_loop_long (sec usec : Int) : Int × Int :=
  if 1000000 ≤ usec then start_timer_loop_long (wrap_long (sec + 1)) (usec - 1000000)
  else (sec, usec)
termination_by usec.toNat
decreasing_by omega

/-- The function `start_timer(handler, id, timeout, timed_out, cb_data)` with
the arithmetic of the field types: `now.tv_sec += timeout->tv_sec` and
`now.tv_usec += timeout->tv_usec` are 64-bit additions. Everything else is as
in `start_timer`. -/
def start_timer_long {σ : Type} (sel_start_timer : σ → timeval → Int × σ) (now : timeval)
    (id : os_hnd_timer_id σ) (timeout : timeval) (timed_out cb_data : Nat) :
    Int × os_hnd_timer_id σ :=
  if id.running ≠ 0 then
    (EBUSY, id)
  else
    let id1 := { id with running := 1, cb_data := cb_data, timed_out := timed_out }
    let d := start_timer_loop_long (wrap_long (now.tv_sec + timeout.tv_sec))
      (wrap_long (now.tv_usec + timeout.tv_usec))
    let r := sel_start_timer id1.timer { tv_sec := d.1, tv_usec := d.2 }
    (r.1, { id1 with timer := r.2 })

/-- Modelled from the spec: the selector call `sel_start_timer` (selector.c is
not among the sources) on a selector timer that is either armed with a deadline
or idle; arming an armed timer is refused with `EBUSY`. -/
def sample_sel_start_timer (t : Option timeval) (d : timeval) : Int × Option timeval :=
  match t with
  | none => (0, some d)
  | some _ => (EBUSY, t)

/-- Modelled from the spec: the selector call `sel_stop_timer` (selector.c is
not among the sources): an idempotent cancellation, which leaves the selector
timer idle and is a no-op on an idle one. -/
def sample_sel_stop_timer (_t : Option timeval) : Int × Option timeval :=
  (0, none)

/-- A timer handle as `alloc_timer` leaves it: not running, no callback, the
selector timer idle. -/
def sample_timer : os_hnd_timer_id (Option timeval) :=
  { cb_data := 0, timed_out := 0, timer := none, running := 0 }

/-! ## Harness definitions for the console theorems -/

/-- The command texts handed to `ipmi_emu_cmd` among a list of events, in
order. -/
def emu_cmds : List ConsoleEvent → List (List Nat)
  | [] => []
  | ConsoleEvent.emu_cmd t :: ev => t :: emu_cmds ev
  | ConsoleEvent.write _ _ :: ev => emu_cmds ev

/-- The session after `handle_user_char` has been called on each byte of `cs`
in turn (over any number of reads). -/
def feed_chars (info : console_info) (cs : List Nat) : console_info :=
  cs.foldl (fun s c => (handle_user_char s c).2.1) info

/-- A session on descriptor 5 whose line is full: 1023 letters `a` (97) in the
1024-byte buffer, Idle sub-machine, echo and Telnet on. -/
def full_console : console_info :=
  { buffer := List.replicate 1023 97 ++ [0], pos := 1023, telnet := 1, echo := 1,
    shutdown_on_close := 0, outfd := 5, tn_pos := 0, tn_buf := [0, 0, 0, 0] }

/-! ## Console registry (`lanserv/ipmi_sim.c`) -/

/-- The console registry as the pointers see it. A session record is named by
its address, a `Nat`, with 0 for `NULL`; `consoles` is `misc->consoles`, and
`prev a`, `next a` are the fields `prev` and `next` of the record at address
`a`. -/
structure console_registry where
  consoles : Nat
  prev : Nat → Nat
  next : Nat → Nat

/-- The four statements of `console_bind_ready` that put the new record at the
head of the registry:
`newcon->next = misc->consoles; if (newcon->next) newcon->next->prev = newcon;
newcon->prev = NULL; misc->consoles = newcon;`. -/
def console_link (misc : console_registry) (newcon : Nat) : console_registry :=
  let next1 := Function.update misc.next newcon misc.consoles
  let prev1 :=
    if next1 newcon ≠ 0 then Function.update misc.prev (next1 newcon) newcon else misc.prev
  let prev2 := Function.update prev1 newcon 0
  { consoles := newcon, prev := prev2, next := next1 }

/-- The unlinking statements at `closeit` in `user_data_ready`:
`if (info->prev) info->prev->next = info->next; else info->data->consoles =
info->next; if (info->next) info->next->prev = info->prev;`. -/
def console_unlink (misc : console_registry) (info : Nat) : console_registry :=
  let m1 : console_registry :=
    if misc.prev info ≠ 0 then
      { misc with next := Function.update misc.next (misc.prev info) (misc.next info) }
    else
      { misc with consoles := misc.next info }
  if m1.next info ≠ 0 then
    { m1 with prev := Function.update m1.prev (m1.next info) (m1.prev info) }
  else
    m1

/-- The walk over the registry that `ipmi_emu_shutdown` performs,
`con = data->consoles; while (con) { ...; con = con->next; }`, started at
`con` and cut off after `fuel` records: the addresses visited, in order. -/
def registry_walk (misc : console_registry) : Nat → Nat → List Nat
  | 0, _ => []
  | fuel + 1, con => if con = 0 then [] else con :: registry_walk misc fuel (misc.next con)

/-- The registry holds exactly the records `l`, in this order, when entered
through a pointer `h` from a record (or list head) whose own address is `p`:
every record is not `NULL`, points back to its predecessor and forward to the
next record, and the last one points forward to `NULL`. -/
def reg_chain (misc : console_registry) : Nat → Nat → List Nat → Prop
  | _, h, [] => h = 0
  | p, h, x :: xs => h = x ∧ x ≠ 0 ∧ misc.prev x = p ∧ reg_chain misc x (misc.next x) xs

/-- One step of registry history: a console connection is accepted and gets
the record at address `newcon`, or the session with record `info` is closed. -/
inductive RegistryOp where
  | accept (newcon : Nat)
  | close (info : Nat)
deriving DecidableEq, Repr

/-- The registry after one step. -/
def reg_step (misc : console_registry) : RegistryOp → console_registry
  | RegistryOp.accept newcon => console_link misc newcon
  | RegistryOp.close info => console_unlink misc info

/-- The registry after a sequence of steps, first step first. -/
def reg_run (misc : console_registry) (ops : List RegistryOp) : console_registry :=
  ops.foldl reg_step misc

/-- The live sessions after one step, newest first: an accepted record joins
them, a closed one leaves. -/
def live_step (live : List Nat) : RegistryOp → List Nat
  | RegistryOp.accept newcon => newcon :: live
  | RegistryOp.close info => live.erase info

/-- The live sessions after a sequence of steps. -/
def live_run (live : List Nat) (ops : List RegistryOp) : List Nat :=
  ops.foldl live_step live

/-- A sequence of steps is admissible from the live sessions `live`: a record
handed out by `malloc` for an accepted connection is not `NULL` and is not the
record of a live session, and only live sessions are closed. -/
def reg_ops_valid : List Nat → List RegistryOp → Bool
  | _, [] => true
  | live, RegistryOp.accept newcon :: ops =>
    decide (newcon ≠ 0) && decide (newcon ∉ live)
      && reg_ops_valid (newcon :: live) ops
  | live, RegistryOp.close info :: ops =>
    decide (info ∈ live) && reg_ops_valid (live.erase info) ops

/-- The number of accepts in a sequence of steps. -/
def reg_inserts : List RegistryOp → Nat
  | [] => 0
  | RegistryOp.accept _ :: ops => reg_inserts ops + 1
  | RegistryOp.close _ :: ops => reg_inserts ops

/-- The number of closes in a sequence of steps. -/
def reg_removes : List RegistryOp → Nat
  | [] => 0
  | RegistryOp.accept _ :: ops => reg_removes ops
  | RegistryOp.close _ :: ops => reg_removes ops + 1

/-- An empty registry: `consoles` is `NULL`; the link fields of records not yet
allocated hold whatever `garbage` says. -/
def empty_registry (garbage : Nat → Nat) : console_registry :=
  { consoles := 0, prev := garbage, next := garbage }

/-- A sample history: three connections are accepted, with records at the
addresses 1, 2 and 3, then the session with record 2 is closed. -/
def sample_history : List RegistryOp :=
  [RegistryOp.accept 1, RegistryOp.accept 2, RegistryOp.accept 3, RegistryOp.close 2]

/-! ## Reactor callbacks of the channels and of the console listener -/

/-- The errno value `EINTR` of the platform headers. -/
def EINTR : Int := 4

/-- The errno value `ENOMEM` of the platform headers. -/
def ENOMEM : Int := 12

/-- A call by which a callback acts on the outside world: system calls,
selector and reactor calls, and calls into the protocol engine and the serial
codec. The callbacks below return the calls they make, in order; after `exit`
the process is gone and nothing follows. `add_fd_to_wait_for fd err` is the
reactor registration of `fd` together with the value it returned. -/
inductive SysCall where
  | perror (msg : String)
  | fprintf_stderr (format : String) (arg : Int)
  | exit (status : Int)
  | close (fd : Int)
  | free (ptr : Nat)
  | write (fd : Int) (bytes : List Nat)
  | setsockopt_tcp_nodelay (fd : Int)
  | setsockopt_keepalive (fd : Int)
  | add_fd_to_wait_for (fd : Int) (err : Int)
  | remove_fd_to_wait_for (id : Nat)
  | codec_connected
  | codec_disconnected
  | serserv_handle_data (msgd : List Nat) (len : Int)
  | debug_log_raw_msg (data : List Nat) (len : Int) (label : String)
  | handle_asf (msgd : List Nat) (len : Int) (from_addr : List Nat) (xmit_fd : Int)
  | ipmi_handle_lan_msg (msgd : List Nat) (len : Int) (from_addr : List Nat) (xmit_fd : Int)
  | sendmsg (fd : Int) (name : List Nat) (namelen : Nat) (iov : List (List Nat)) (iovlen : Int)
  | ipmi_emu_shutdown
  | sel_set_fd_write_handler (fd : Int) (enabled : Bool)
  | sel_set_fd_except_handler (fd : Int) (enabled : Bool)
  | sel_set_fd_read_handler (fd : Int) (enabled : Bool)
  | sel_set_fd_handlers (fd : Int) (fd_data : Nat)
deriving DecidableEq, Repr

/-- The function `add_fd` of `unix/posix_thread_os_hnd.c`, the
`add_fd_to_wait_for` entry of the OS handler. `fd_data` is what `malloc`
returns (0 for `NULL`), `sel_rv` what `sel_set_fd_handlers` returns. Result:
the return value, the id stored through `id` (0 when nothing is stored) and
the calls made. -/
def add_fd (fd : Int) (fd_data : Nat) (sel_rv : Int) : Int × Nat × List SysCall :=
  if fd_data = 0 then
    (ENOMEM, 0, [])
  else
    let ev := [SysCall.sel_set_fd_write_handler fd false,
      SysCall.sel_set_fd_except_handler fd false, SysCall.sel_set_fd_handlers fd fd_data]
    if sel_rv ≠ 0 then
      (sel_rv, 0, ev ++ [SysCall.free fd_data])
    else
      (0, fd_data, ev ++ [SysCall.sel_set_fd_read_handler fd true])

/-- The record `sim_addr_t`: a peer address, its length and the descriptor to
answer on. -/
structure sim_addr where
  addr : List Nat
  addr_len : Nat
  xmit_fd : Int
deriving DecidableEq, Repr

/-- The function `lan_send(lan, data, vecs, addr, addr_len)`; a `NULL` address
is `none`. -/
def lan_send (data : List (List Nat)) (vecs : Int) (addr : Option sim_addr) : List SysCall :=
  match addr with
  | none => []
  | some l => [SysCall.sendmsg l.xmit_fd l.addr l.addr_len data vecs]

/-- The function `lan_data_ready(lan_fd, cb_data, id)`. The call `recvfrom`
returns `len` and, on failure, sets `errno`; on success `msgd` is the 256-byte
receive buffer and `from_addr` the sender. `debug_raw` says whether
`lan->bmcinfo->debug & DEBUG_RAW_MSG` is nonzero. -/
def lan_data_ready (lan_fd : Int) (debug_raw : Bool) (len : Int) (msgd : List Nat)
    (from_addr : List Nat) (errno : Int) : List SysCall :=
  if len < 0 then
    if errno ≠ EINTR then
      [SysCall.perror "Error receiving message", SysCall.exit 1]
    else
      []
  else
    let dbg :=
      if debug_raw then
        [SysCall.debug_log_raw_msg from_addr (from_addr.length : Int) "Raw LAN receive from:",
          SysCall.debug_log_raw_msg msgd len " Receive message:"]
      else []
    if len < 4 then
      dbg
    else if msgd.getD 0 0 ≠ 6 then
      dbg
    else if msgd.getD 3 0 = 6 then
      dbg ++ [SysCall.handle_asf msgd len from_addr lan_fd]
    else if msgd.getD 3 0 = 7 then
      dbg ++ [SysCall.ipmi_handle_lan_msg msgd len from_addr lan_fd]
    else
      dbg

/-- The calls of a callback that go to one of the two LAN protocol handlers. -/
def lan_handler_calls : List SysCall → List SysCall
  | [] => []
  | SysCall.handle_asf m n a f :: ev => SysCall.handle_asf m n a f :: lan_handler_calls ev
  | SysCall.ipmi_handle_lan_msg m n a f :: ev =>
    SysCall.ipmi_handle_lan_msg m n a f :: lan_handler_calls ev
  | _ :: ev => lan_handler_calls ev

/-- The fields of `serserv_data_t` that the serial callbacks use: the
descriptor of the connected peer (-1 when there is none), the listening
descriptor, and whether the codec has a `connected` and a `disconnected`
notification. -/
structure serserv_data where
  con_fd : Int
  bind_fd : Int
  has_connected : Bool
  has_disconnected : Bool
deriving DecidableEq, Repr

/-- The function `ser_data_ready(fd, cb_data, id)`. The call `read` returns
`len` and, on failure, sets `errno`; `msgd` is the 256-byte buffer. -/
def ser_data_ready (ser : serserv_data) (fd : Int) (id : Nat) (len : Int)
    (msgd : List Nat) (errno : Int) : serserv_data × List SysCall :=
  if len ≤ 0 then
    if len < 0 ∧ errno = EINTR then
      (ser, [])
    else
      ({ ser with con_fd := -1 },
        (if ser.has_disconnected then [SysCall.codec_disconnected] else [])
          ++ [SysCall.remove_fd_to_wait_for id, SysCall.close fd])
  else
    (ser, [SysCall.serserv_handle_data msgd len])

/-- The function `ser_bind_ready(fd, cb_data, id)`. The call `accept` returns
`rv`; `err` is what `add_fd_to_wait_for` returns if it is called. -/
def ser_bind_ready (ser : serserv_data) (rv : Int) (err : Int) :
    serserv_data × List SysCall :=
  if rv < 0 then
    (ser, [SysCall.perror "Error from accept", SysCall.exit 1])
  else if ser.con_fd ≥ 0 then
    (ser, [SysCall.close rv])
  else
    let ev := [SysCall.setsockopt_tcp_nodelay rv, SysCall.setsockopt_keepalive rv]
    let ser1 := { ser with con_fd := rv }
    let ev1 := ev ++ [SysCall.add_fd_to_wait_for ser1.con_fd err]
    if err ≠ 0 then
      ({ ser1 with con_fd := -1 },
        ev1 ++ [SysCall.fprintf_stderr "Unable to add serial socket wait: 0x%x\n" err,
          SysCall.close rv])
    else
      (ser1, ev1 ++ (if ser1.has_connected then [SysCall.codec_connected] else []))

/-- The greeting `telnet_init_seq` of `console_bind_ready`. -/
def telnet_init_seq : List Nat :=
  [TN_IAC, TN_WILL, TN_OPT_SUPPRESS_GO_AHEAD, TN_IAC, TN_WILL, TN_OPT_ECHO,
    TN_IAC, TN_DONT, TN_OPT_ECHO]

/-- The function `console_bind_ready(fd, cb_data, id)` on the registry. The
call `accept` returns `rv`, `malloc` returns the address `newcon` (0 for
`NULL`) and `add_fd_to_wait_for` returns `err`. The fields of the new record
other than the links are set as in `new_console`. After the statements of the
`if (err)` block control goes on to the linking statements, as in the source:
the block has no `return`. -/
def console_bind_ready (misc : console_registry) (rv : Int) (newcon : Nat) (err : Int) :
    console_registry × List SysCall :=
  if rv < 0 then
    (misc, [SysCall.perror "Error from accept", SysCall.exit 1])
  else if newcon = 0 then
    (misc, [SysCall.write rv (str_bytes "Out of memory\n"), SysCall.close rv])
  else
    let ev := [SysCall.setsockopt_tcp_nodelay rv, SysCall.setsockopt_keepalive rv,
      SysCall.add_fd_to_wait_for rv err]
    let ev1 :=
      if err ≠ 0 then
        [SysCall.write rv (str_bytes "Unable to add socket wait\n"), SysCall.close rv,
          SysCall.free newcon]
      else []
    (console_link misc newcon,
      ev ++ ev1 ++ [SysCall.write rv telnet_init_seq, SysCall.write rv [62, 32]])

/-- The part of `user_data_ready` from the label `closeit` on, for the session
whose record is at `info`: a session with `shutdown_on_close` set shuts the
simulator down; any other is deregistered, closed, unlinked and freed. -/
def user_data_ready_closeit (misc : console_registry) (info : Nat) (shutdown_on_close : Int)
    (conid : Nat) (fd : Int) : console_registry × List SysCall :=
  if shutdown_on_close ≠ 0 then
    (misc, [SysCall.ipmi_emu_shutdown])
  else
    (console_unlink misc info,
      [SysCall.remove_fd_to_wait_for conid, SysCall.close fd, SysCall.free info])

/-! ## Condition variable (`unix/posix_thread_os_hnd.c`) -/

/-- The record `struct timespec`. -/
structure timespec where
  tv_sec : Int
  tv_nsec : Int
deriving DecidableEq, Repr

/-- The carry loop of `cond_timedwait`:
`while (spec.tv_nsec > 1000000000) { spec.tv_sec += 1; spec.tv_nsec -= 1000000000; }`. -/
def cond_timedwait_loop (sec nsec : Int) : Int × Int :=
  if nsec > 1000000000 then cond_timedwait_loop (sec + 1) (nsec - 1000000000)
  else (sec, nsec)
termination_by nsec.toNat
decreasing_by omega

/-- The absolute wake time that `cond_timedwait` computes from the current time
`now` (`gettimeofday`) and the relative `timeout`. -/
def cond_timedwait_abstime (now timeout : timeval) : timespec :=
  let r := cond_timedwait_loop (timeout.tv_sec + now.tv_sec)
    ((timeout.tv_usec + now.tv_usec) * 1000)
  { tv_sec := r.1, tv_nsec := r.2 }

/-- The function `cond_timedwait(handler, cond, lock, timeout)`: the result of
the platform call `pthread_cond_timedwait` on the computed wake time. -/
def cond_timedwait (pthread_cond_timedwait : timespec → Int) (now timeout : timeval) : Int :=
  pthread_cond_timedwait (cond_timedwait_abstime now timeout)

/-- A serial channel in listen mode with a peer connected on descriptor 9 and
a codec that has both notifications. -/
def sample_ser : serserv_data :=
  { con_fd := 9, bind_fd := 8, has_connected := true, has_disconnected := true }

/-- A 256-byte receive buffer that starts with the given bytes. -/
def recv_buffer (bytes : List Nat) : List Nat :=
  bytes ++ List.replicate (256 - bytes.length) 0

/-! ## Periodic tick (`lanserv/ipmi_sim.c`) -/

/-- The fields of `channel_t` that `tick` reads: the medium type and the
pointer `chan_info` (kept as a number). -/
structure channel where
  medium_type : Int
  chan_info : Nat
deriving DecidableEq, Repr

/-- A call made by `tick`: into the LAN code, into the protocol engine, or the
diagnostic and `exit` of its error path. After `exit` nothing follows. -/
inductive TickCall where
  | ipmi_lan_tick (chan_info : Nat) (time_since_last : Int)
  | ipmi_emu_tick (seconds : Int)
  | fprintf_stderr (format : String) (arg : Int)
  | exit (status : Int)
deriving DecidableEq, Repr

/-- The loop of `tick` over `data->bmc->channels[0 .. IPMI_MAX_CHANNELS - 1]`;
the array is the list of its slots, `none` for a `NULL` slot, and
`lan_medium` is the value of `IPMI_CHANNEL_MEDIUM_8023_LAN`. -/
def tick_channels (lan_medium : Int) : List (Option channel) → List TickCall
  | [] => []
  | none :: chans => tick_channels lan_medium chans
  | some chan :: chans =>
    (if chan.medium_type = lan_medium then [TickCall.ipmi_lan_tick chan.chan_info 1] else [])
      ++ tick_channels lan_medium chans

/-- The function `tick(cb_data, id)`. `timer` is the handle `data->timer`,
`tick_fn` the address of `tick` itself and `data` the value of `cb_data`, both
handed on to `start_timer`; `now` and `sel_start_timer` are as in
`start_timer`. Returns the handle afterwards and the calls made. -/
def tick {σ : Type} (sel_start_timer : σ → timeval → Int × σ) (now : timeval)
    (lan_medium : Int) (channels : List (Option channel)) (timer : os_hnd_timer_id σ)
    (tick_fn data : Nat) : os_hnd_timer_id σ × List TickCall :=
  let ev := tick_channels lan_medium channels ++ [TickCall.ipmi_emu_tick 1]
  let r := start_timer sel_start_timer now timer { tv_sec := 1, tv_usec := 0 } tick_fn data
  if r.1 ≠ 0 then
    (r.2, ev ++ [TickCall.fprintf_stderr "Unable to start timer: 0x%x\n" r.1, TickCall.exit 1])
  else
    (r.2, ev)

/-- One expiry of the periodic timer: the selector runs `timer_handler` on the
handle, which clears the running flag and calls the stored callback, `tick`,
with the stored context and the handle. -/
def timer_expiry {σ : Type} (sel_start_timer : σ → timeval → Int × σ) (now : timeval)
    (lan_medium : Int) (channels : List (Option channel)) (timer_data : os_hnd_timer_id σ) :
    os_hnd_timer_id σ × List TickCall :=
  let h := timer_handler timer_data
  tick sel_start_timer now lan_medium channels h.2 h.1.1 h.1.2

/-- The `chan_info` pointers of the configured channels whose medium is LAN, in
slot order, one entry for each such channel. -/
def lan_chan_infos (lan_medium : Int) (channels : List (Option channel)) : List Nat :=
  channels.filterMap (fun slot =>
    match slot with
    | none => none
    | some chan => if chan.medium_type = lan_medium then some chan.chan_info else none)

/-- A sample channel table for the medium value 4: LAN channels in slots 0 and
3, an empty slot 1 and a channel of another medium in slot 2. -/
def sample_channels : List (Option channel) :=
  [some { medium_type := 4, chan_info := 100 }, none,
    some { medium_type := 5, chan_info := 200 }, some { medium_type := 4, chan_info := 300 }]

/-- The periodic timer while it is armed: `tick` (address 3) and its context
(address 4) are stored, the running flag is set; the selector timer is idle, as
the selector leaves it when it reports the expiry. -/
def sample_periodic_timer : os_hnd_timer_id (Option timeval) :=
  { cb_data := 4, timed_out := 3, timer := none, running := 1 }

/-- The registry after one connection was accepted on descriptor 7 into the
record at address 1, from an empty registry; the registration succeeded. -/
def registry_after_accept : console_registry :=
  (console_bind_ready (empty_registry (fun _ => 0)) 7 1 0).1

/-- The registry after a second connection, on descriptor 8 and with the record
at address 2, whose registration failed with `ENOMEM`. -/
def registry_after_failed_accept : console_registry :=
  (console_bind_ready registry_after_accept 8 2 ENOMEM).1

/-- The registry after a third connection, on descriptor 9, for which `malloc`
handed out the address 2 again (the record there was freed by the failed
accept) and the registration succeeded. -/
def registry_after_reuse : console_registry :=
  (console_bind_ready registry_after_failed_accept 9 2 0).1

/-- A registry whose head was never assigned and happens to hold the address 5,
as the local `misc_data_t data` of `main` may: `main` does not set
`data.consoles` before the first accept reads it. -/
def unassigned_registry : console_registry :=
  { consoles := 5, prev := fun _ => 0, next := fun _ => 0 }

/-! ## Theorems: console session -/

/-- A list of length four is a four-element literal. -/
theorem list_length_four {α : Type} (l : List α) (h : l.length = 4) :
    ∃ a b c d, l = [a, b, c, d] := by
  match l, h with
  | [a, b, c, d], _ => exact ⟨a, b, c, d, rfl⟩

/-- C1: in a Telnet-enabled session whose sub-machine is Idle, the three bytes
IAC, cmd, o are answered by exactly IAC DONT o when cmd is WILL, by nothing when
cmd is WONT, by nothing when cmd is DO and o is ECHO or SUPPRESS-GO-AHEAD, and
by exactly IAC WONT o when cmd is DO and o is another option; in each case the
loop returns 0, the sub-machine is Idle again and the line buffer and the
cursor are unchanged. -/
theorem telnet_option_negotiation (info : console_info) (o : Nat)
    (htel : info.telnet ≠ 0) (hidle : info.tn_pos = 0) (hlen : info.tn_buf.length = 4) :
    (user_data_loop info [TN_IAC, TN_WILL, o]).2.2
        = [ConsoleEvent.write info.outfd [TN_IAC, TN_DONT, o]]
    ∧ (user_data_loop info [TN_IAC, TN_WONT, o]).2.2 = []
    ∧ ((o = TN_OPT_ECHO ∨ o = TN_OPT_SUPPRESS_GO_AHEAD) →
        (user_data_loop info [TN_IAC, TN_DO, o]).2.2 = [])
    ∧ (¬ (o = TN_OPT_ECHO ∨ o = TN_OPT_SUPPRESS_GO_AHEAD) →
        (user_data_loop info [TN_IAC, TN_DO, o]).2.2
          = [ConsoleEvent.write info.outfd [TN_IAC, TN_WONT, o]])
    ∧ ∀ cmd, cmd = TN_WILL ∨ cmd = TN_WONT ∨ cmd = TN_DO →
        (user_data_loop info [TN_IAC, cmd, o]).1 = 0
        ∧ (user_data_loop info [TN_IAC, cmd, o]).2.1.tn_pos = 0
        ∧ (user_data_loop info [TN_IAC, cmd, o]).2.1.buffer = info.buffer
        ∧ (user_data_loop info [TN_IAC, cmd, o]).2.1.pos = info.pos := by
  obtain ⟨a, b, c, d, hab⟩ := list_length_four info.tn_buf hlen
  obtain ⟨buffer, pos, telnet, echo, soc, outfd, tn_pos, tn_buf⟩ := info
  simp only at htel hidle hab
  subst hidle hab
  refine ⟨?_, ?_, ?_, ?_, ?_⟩
  · simp [user_data_loop, handle_user_char, handle_telnet, handle_telnet_send_dont,
      handle_telnet_cmd_done, TN_IAC, TN_WILL, TN_DONT, htel]
  · simp [user_data_loop, handle_user_char, handle_telnet,
      handle_telnet_cmd_done, TN_IAC, TN_WILL, TN_WONT, htel]
  · intro ho
    simp [user_data_loop, handle_user_char, handle_telnet, handle_telnet_send_wont,
      handle_telnet_cmd_done, TN_IAC, TN_WILL, TN_WONT, TN_DO, htel, ho]
  · intro ho
    simp [user_data_loop, handle_user_char, handle_telnet, handle_telnet_send_wont,
      handle_telnet_cmd_done, TN_IAC, TN_WILL, TN_WONT, TN_DO, htel, ho]
  · intro cmd hcmd
    rcases hcmd with h | h | h <;> subst h
    · simp [user_data_loop, handle_user_char, handle_telnet, handle_telnet_send_dont,
        handle_telnet_cmd_done, TN_IAC, TN_WILL, TN_DONT, htel]
    · simp [user_data_loop, handle_user_char, handle_telnet,
        handle_telnet_cmd_done, TN_IAC, TN_WILL, TN_WONT, htel]
    · by_cases ho : o = TN_OPT_ECHO ∨ o = TN_OPT_SUPPRESS_GO_AHEAD
      · simp [user_data_loop, handle_user_char, handle_telnet, handle_telnet_send_wont,
          handle_telnet_cmd_done, TN_IAC, TN_WILL, TN_WONT, TN_DO, htel, ho]
      · simp [user_data_loop, handle_user_char, handle_telnet, handle_telnet_send_wont,
          handle_telnet_cmd_done, TN_IAC, TN_WILL, TN_WONT, TN_DO, htel, ho]

/-- Witness for C1 at the sample session and the option ECHO: the reply to
IAC WILL ECHO is exactly IAC DONT ECHO. -/
theorem telnet_option_negotiation_witness :
    (sample_console.telnet ≠ 0 ∧ sample_console.tn_pos = 0
      ∧ sample_console.tn_buf.length = 4)
    ∧ (user_data_loop sample_console [TN_IAC, TN_WILL, TN_OPT_ECHO]).2.2
        = [ConsoleEvent.write 5 [TN_IAC, TN_DONT, TN_OPT_ECHO]] :=
  ⟨by decide,
    (telnet_option_negotiation sample_console TN_OPT_ECHO (by decide) (by decide)
      (by decide)).1⟩

/-- C2, what the code does: on a fresh Telnet session the two bytes IAC IAC
append nothing to the line (the cursor stays at 0 and the buffer is unchanged),
write nothing, and leave the sub-machine with one buffered byte (`tn_pos = 1`),
not Idle; a letter sent next is then consumed as a one-byte Telnet command and
is lost as well. -/
theorem double_iac_appends_nothing :
    (user_data_loop sample_console [TN_IAC, TN_IAC]).1 = 0
    ∧ (user_data_loop sample_console [TN_IAC, TN_IAC]).2.1.pos = 0
    ∧ (user_data_loop sample_console [TN_IAC, TN_IAC]).2.1.buffer = sample_console.buffer
    ∧ (user_data_loop sample_console [TN_IAC, TN_IAC]).2.1.tn_pos = 1
    ∧ (user_data_loop sample_console [TN_IAC, TN_IAC]).2.2 = []
    ∧ (user_data_loop sample_console [TN_IAC, TN_IAC, 97]).2.1.pos = 0
    ∧ (user_data_loop sample_console [TN_IAC, TN_IAC, 97]).2.2 = [] :=
  ⟨by decide, by decide, rfl, by decide, by decide, by decide, by decide⟩

/-- C3, what the code does: after the opener IAC 250 24 the first payload byte
(here 1, which does not complete the end marker) is answered with IAC WONT 1
and puts the sub-machine back to Idle at once; the next payload byte (the
letter `a`) is then appended to the line buffer as user data. -/
theorem suboption_payload_leaks :
    (user_data_loop sample_console [TN_IAC, 250, 24]).2.1.tn_pos = 3
    ∧ (user_data_loop sample_console [TN_IAC, 250, 24]).2.2 = []
    ∧ (user_data_loop sample_console [TN_IAC, 250, 24, 1]).2.2
        = [ConsoleEvent.write 5 [TN_IAC, TN_WONT, 1]]
    ∧ (user_data_loop sample_console [TN_IAC, 250, 24, 1]).2.1.tn_pos = 0
    ∧ (user_data_loop sample_console [TN_IAC, 250, 24, 1, 97]).2.1.pos = 1
    ∧ (user_data_loop sample_console [TN_IAC, 250, 24, 1, 97]).2.1.buffer.take 1 = [97] := by
  decide

/-- Writing the terminating NUL at index `n` of a buffer whose first `n` bytes
are not NUL makes the stored C string exactly those `n` bytes. -/
theorem c_string_set_nul (buf : List Nat) (n : Nat) (hn : n < buf.length)
    (h : ∀ i, i < n → buf.getD i 0 ≠ 0) : c_string (buf.set n 0) = buf.take n := by
  induction buf generalizing n with
  | nil => simp at hn
  | cons x xs ih =>
    cases n with
    | zero => simp [c_string]
    | succ k =>
      have hx : x ≠ 0 := by simpa using h 0 (by omega)
      have hk : k < xs.length := by simpa using hn
      have ih2 := ih k hk (fun i hi => by simpa using h (i + 1) (by omega))
      simp only [c_string] at ih2
      simp [c_string, hx, ih2]

/-- The interpreter calls among two event lists put end to end. -/
theorem emu_cmds_append (a b : List ConsoleEvent) :
    emu_cmds (a ++ b) = emu_cmds a ++ emu_cmds b := by
  induction a with
  | nil => simp [emu_cmds]
  | cons e es ih => cases e <;> simp [emu_cmds, ih]

/-- Carriage return or linefeed on an Idle session whose line holds no NUL:
the call returns 0 and resets the cursor; the buffered text goes to the
interpreter once, unless it is the sentinel, which only clears the echo flag. -/
theorem handle_user_char_newline (info : console_info) (t : Nat)
    (ht : t = 10 ∨ t = 13) (hidle : info.tn_pos = 0)
    (hlen : info.buffer.length = 1024) (hpos : info.pos ≤ 1023)
    (hchars : ∀ i, i < info.pos → info.buffer.getD i 0 ≠ 0) :
    (handle_user_char info t).1 = 0
    ∧ (handle_user_char info t).2.1.pos = 0
    ∧ (info.buffer.take info.pos ≠ noecho_cmd →
        emu_cmds (handle_user_char info t).2.2 = [info.buffer.take info.pos]
        ∧ (handle_user_char info t).2.1.echo = info.echo)
    ∧ (info.buffer.take info.pos = noecho_cmd →
        emu_cmds (handle_user_char info t).2.2 = []
        ∧ (handle_user_char info t).2.1.echo = 0) := by
  obtain ⟨buffer, pos, telnet, echo, soc, outfd, tn_pos, tn_buf⟩ := info
  simp only at hidle hlen hpos hchars
  subst hidle
  have hcs := c_string_set_nul buffer pos (by omega) hchars
  by_cases hne : buffer.take pos = noecho_cmd <;> by_cases he : echo = 0 <;>
    by_cases htl : telnet = 0 <;> rcases ht with h | h <;> subst h <;>
    simp [handle_user_char, TN_IAC, hcs, hne, emu_cmds_append, emu_cmds, he, htl]

/-- C4: on an Idle session whose line holds 1023 characters, an ordinary data
byte (not NUL, not one of the editing bytes 4, 8, 10, 13, 127, and not IAC when
Telnet is on) changes nothing in the session and writes exactly the "Command
is too long" notice; a carriage return or linefeed after it returns 0, hands
exactly the 1023 buffered characters to the interpreter, once, and resets the
cursor to 0. -/
theorem full_line_overflow (info : console_info) (c t : Nat)
    (hidle : info.tn_pos = 0) (hpos : info.pos = 1023)
    (hlen : info.buffer.length = 1024)
    (hchars : ∀ i, i < 1023 → info.buffer.getD i 0 ≠ 0)
    (hc0 : c ≠ 0) (hc : c ≠ 4 ∧ c ≠ 8 ∧ c ≠ 10 ∧ c ≠ 13 ∧ c ≠ 127)
    (hiac : c = TN_IAC → info.telnet = 0) (ht : t = 10 ∨ t = 13) :
    handle_user_char info c = (0, info, [ConsoleEvent.write info.outfd too_long_msg])
    ∧ (handle_user_char (handle_user_char info c).2.1 t).1 = 0
    ∧ emu_cmds (handle_user_char (handle_user_char info c).2.1 t).2.2
        = [info.buffer.take 1023]
    ∧ (handle_user_char (handle_user_char info c).2.1 t).2.1.pos = 0 := by
  have h1 : handle_user_char info c
      = (0, info, [ConsoleEvent.write info.outfd too_long_msg]) := by
    obtain ⟨hc4, hc8, hc10, hc13, hc127⟩ := hc
    by_cases hi : c = TN_IAC
    · have htel := hiac hi
      simp [handle_user_char, handle_user_char_handle_char, hidle, hpos, hc0, hi, htel]
      simp [TN_IAC]
    · simp [handle_user_char, handle_user_char_handle_char, hidle, hpos, hc0, hi,
        hc4, hc8, hc10, hc13, hc127]
  have h2 := handle_user_char_newline info t ht hidle hlen (by omega)
    (fun i hi => hchars i (by omega))
  have hne : info.buffer.take info.pos ≠ noecho_cmd := by
    intro h
    have hl := congrArg List.length h
    simp [noecho_cmd, hpos, hlen] at hl
  rw [h1]
  refine ⟨rfl, h2.1, ?_, h2.2.1⟩
  have h3 := (h2.2.2.1 hne).1
  rw [hpos] at h3
  exact h3

/-- Witness for C4 at the full sample line, the data byte `b` (98) and a
carriage return. -/
theorem full_line_overflow_witness :
    handle_user_char full_console 98
        = (0, full_console, [ConsoleEvent.write full_console.outfd too_long_msg])
    ∧ (handle_user_char (handle_user_char full_console 98).2.1 13).1 = 0
    ∧ emu_cmds (handle_user_char (handle_user_char full_console 98).2.1 13).2.2
        = [full_console.buffer.take 1023]
    ∧ (handle_user_char (handle_user_char full_console 98).2.1 13).2.1.pos = 0 :=
  full_line_overflow full_console 98 13 (by decide) (by decide)
    (by
      show (List.replicate 1023 97 ++ [0]).length = 1024
      rw [List.length_append, List.length_replicate]
      rfl)
    (by
      intro i hi
      show (List.replicate 1023 97 ++ [0]).getD i 0 ≠ 0
      rw [List.getD_eq_getElem?_getD,
        List.getElem?_append_left (by rw [List.length_replicate]; exact hi),
        List.getElem?_replicate, if_pos hi]
      decide)
    (by decide) (by decide) (by simp [TN_IAC]) (by decide)

/-- The function `handle_telnet` never touches the line buffer or the cursor. -/
theorem handle_telnet_line (info : console_info) (c : Nat) :
    (handle_telnet info c).2.1.buffer = info.buffer
    ∧ (handle_telnet info c).2.1.pos = info.pos := by
  unfold handle_telnet
  simp only []
  split_ifs <;>
    simp [handle_telnet_cmd_done, handle_telnet_send_wont, handle_telnet_send_dont]

/-- One call of `handle_user_char` keeps the line well formed: the buffer keeps
its 1024 bytes, the cursor stays at most 1023 and no byte before the cursor is
NUL. -/
theorem handle_user_char_line_ok (info : console_info) (c : Nat)
    (hlen : info.buffer.length = 1024) (hpos : info.pos ≤ 1023)
    (hchars : ∀ i, i < info.pos → info.buffer.getD i 0 ≠ 0) :
    (handle_user_char info c).2.1.buffer.length = 1024
    ∧ (handle_user_char info c).2.1.pos ≤ 1023
    ∧ ∀ i, i < (handle_user_char info c).2.1.pos →
        (handle_user_char info c).2.1.buffer.getD i 0 ≠ 0 := by
  have hr : ∀ r : Nat × console_info × List ConsoleEvent,
      r = (if info.tn_pos ≠ 0 then handle_telnet info c else (c, info, [])) →
      r.2.1.buffer = info.buffer ∧ r.2.1.pos = info.pos := by
    intro r hr
    subst hr
    split
    · exact handle_telnet_line info c
    · exact ⟨rfl, rfl⟩
  unfold handle_user_char
  generalize (if info.tn_pos ≠ 0 then handle_telnet info c else (c, info, [])) = r at hr
  obtain ⟨hb, hp⟩ := hr r rfl
  obtain ⟨c1, info1, ev⟩ := r
  simp only at hb hp ⊢
  rw [← hb] at hlen hchars
  rw [← hp] at hpos hchars
  by_cases h0 : c1 = 0
  · simp only [h0, if_true]
    exact ⟨hlen, hpos, hchars⟩
  simp only [h0, if_false]
  have hset : ∀ x : Nat, x ≠ 0 → info1.pos < 1023 →
      ∀ i, i < info1.pos + 1 → (info1.buffer.set info1.pos x).getD i 0 ≠ 0 := by
    intro x hx hlt i hi
    by_cases hip : i = info1.pos
    · subst hip
      have hl : info1.pos < info1.buffer.length := by omega
      simp only [List.getD_eq_getElem?_getD, List.getElem?_set_self hl]
      exact hx
    · have := hchars i (by omega)
      simp only [List.getD_eq_getElem?_getD] at this ⊢
      rw [List.getElem?_set_ne (Ne.symm hip)]
      exact this
  have hchar : ∀ e : List ConsoleEvent,
      (handle_user_char_handle_char info1 c1 e).2.1.buffer.length = 1024
      ∧ (handle_user_char_handle_char info1 c1 e).2.1.pos ≤ 1023
      ∧ ∀ i, i < (handle_user_char_handle_char info1 c1 e).2.1.pos →
          (handle_user_char_handle_char info1 c1 e).2.1.buffer.getD i 0 ≠ 0 := by
    intro e
    unfold handle_user_char_handle_char
    by_cases hfull : info1.pos ≥ 1023
    · simp only [hfull, if_true]
      exact ⟨hlen, hpos, hchars⟩
    · simp only [hfull, if_false, List.length_set]
      exact ⟨hlen, by omega, hset c1 h0 (by omega)⟩
  by_cases h1 : c1 = TN_IAC
  · simp only [h1, if_true]
    by_cases h2 : info1.telnet ≠ 0
    · rw [if_pos h2]
      exact ⟨hlen, hpos, hchars⟩
    · rw [if_neg h2, ← h1]
      exact hchar ev
  simp only [h1, if_false]
  by_cases h3 : c1 = 8 ∨ c1 = 127
  · simp only [h3, if_true]
    by_cases h4 : info1.pos > 0
    · simp only [h4, if_true]
      exact ⟨hlen, by omega, fun i hi => hchars i (by omega)⟩
    · simp only [h4, if_false]
      exact ⟨hlen, hpos, hchars⟩
  simp only [h3, if_false]
  by_cases h5 : c1 = 4
  · simp only [h5, if_true]
    by_cases h6 : info1.pos = 0
    · simp only [h6, if_true]
      exact ⟨hlen, by omega, fun i hi => hchars i (by omega)⟩
    · simp only [h6, if_false]
      exact ⟨hlen, hpos, hchars⟩
  simp only [h5, if_false]
  by_cases h7 : c1 = 10 ∨ c1 = 13
  · simp only [h7, if_true, List.length_set]
    exact ⟨hlen, by omega, fun i hi => by omega⟩
  simp only [h7, if_false]
  exact hchar ev

/-- Feeding any bytes to a session that starts with an empty line in a
1024-byte buffer keeps the line well formed. -/
theorem feed_chars_line_ok (cs : List Nat) (info : console_info)
    (hlen : info.buffer.length = 1024) (hpos : info.pos ≤ 1023)
    (hchars : ∀ i, i < info.pos → info.buffer.getD i 0 ≠ 0) :
    (feed_chars info cs).buffer.length = 1024
    ∧ (feed_chars info cs).pos ≤ 1023
    ∧ ∀ i, i < (feed_chars info cs).pos → (feed_chars info cs).buffer.getD i 0 ≠ 0 := by
  induction cs generalizing info with
  | nil => exact ⟨hlen, hpos, hchars⟩
  | cons c cs ih =>
    obtain ⟨h1, h2, h3⟩ := handle_user_char_line_ok info c hlen hpos hchars
    exact ih (handle_user_char info c).2.1 h1 h2 h3

/-- C5: let a session start with an empty line (`pos = 0`) and be fed any
bytes; if its sub-machine is then Idle and its line holds the characters `s`
(the first `pos` bytes of the buffer), a linefeed or carriage return returns 0
and leaves `pos = 0`; when `s` is not "noecho" the interpreter is called exactly
once, with exactly `s`; when `s` is "noecho" the interpreter is not called and
the echo flag is cleared. -/
theorem newline_dispatches_line (init : console_info) (cs : List Nat) (t : Nat)
    (hpos : init.pos = 0) (hlen : init.buffer.length = 1024)
    (hidle : (feed_chars init cs).tn_pos = 0) (ht : t = 10 ∨ t = 13) :
    (handle_user_char (feed_chars init cs) t).1 = 0
    ∧ (handle_user_char (feed_chars init cs) t).2.1.pos = 0
    ∧ ((feed_chars init cs).buffer.take (feed_chars init cs).pos ≠ noecho_cmd →
        emu_cmds (handle_user_char (feed_chars init cs) t).2.2
          = [(feed_chars init cs).buffer.take (feed_chars init cs).pos])
    ∧ ((feed_chars init cs).buffer.take (feed_chars init cs).pos = noecho_cmd →
        emu_cmds (handle_user_char (feed_chars init cs) t).2.2 = []
        ∧ (handle_user_char (feed_chars init cs) t).2.1.echo = 0) := by
  obtain ⟨h1, h2, h3⟩ := feed_chars_line_ok cs init hlen (by omega)
    (fun i hi => by omega)
  obtain ⟨r1, r2, r3, r4⟩ :=
    handle_user_char_newline (feed_chars init cs) t ht hidle h1 h2 h3
  exact ⟨r1, r2, fun h => (r3 h).1, r4⟩

/-- Witness for C5: the fresh sample session is fed the six letters of
"noecho" and then a carriage return. -/
theorem newline_dispatches_line_witness :
    (sample_console.pos = 0
      ∧ (feed_chars sample_console [110, 111, 101, 99, 104, 111]).tn_pos = 0)
    ∧ (feed_chars sample_console [110, 111, 101, 99, 104, 111]).buffer.take
        (feed_chars sample_console [110, 111, 101, 99, 104, 111]).pos = noecho_cmd
    ∧ (handle_user_char (feed_chars sample_console [110, 111, 101, 99, 104, 111]) 13).1 = 0
    ∧ (handle_user_char (feed_chars sample_console [110, 111, 101, 99, 104, 111]) 13).2.1.pos
        = 0
    ∧ emu_cmds (handle_user_char (feed_chars sample_console [110, 111, 101, 99, 104, 111])
        13).2.2 = []
    ∧ (handle_user_char (feed_chars sample_console [110, 111, 101, 99, 104, 111])
        13).2.1.echo = 0 :=
  have h := newline_dispatches_line sample_console [110, 111, 101, 99, 104, 111] 13
    (by decide)
    (by
      show (List.replicate 1024 0).length = 1024
      rw [List.length_replicate])
    (by decide) (by decide)
  ⟨by decide, by decide, h.1, h.2.1, (h.2.2.2 (by decide)).1, (h.2.2.2 (by decide)).2⟩

/-! ## Theorems: reentrant lock -/

/-- Nested acquisitions: while thread `t` owns the lock with a count `k ≥ 1`,
`n` more calls of `lock` by `t` all return 0, add `n` to the count and leave the
mutex as it is. -/
theorem lock_n_nested (t : Nat) (m : pthread_mutex) (n : Nat) (k : Nat) (hk : 1 ≤ k) :
    lock_n t n { mutex := m, lock_count := (k : Int), owner := t }
      = some (List.replicate n 0,
          { mutex := m, lock_count := ((k + n : Nat) : Int), owner := t }) := by
  induction n generalizing k with
  | zero => simp [lock_n]
  | succ n ih =>
    have hne : ¬ ((k : Int) = 0) := by omega
    have hstep : lock t { mutex := m, lock_count := (k : Int), owner := t }
        = some (0, { mutex := m, lock_count := ((k + 1 : Nat) : Int), owner := t }) := by
      simp [lock, hne]
    have ih2 := ih (k + 1) (by omega)
    simp only [lock_n, hstep, ih2, List.replicate_succ]
    have e : k + 1 + n = k + (n + 1) := by omega
    rw [e]

/-- Nested releases: while thread `t` owns the lock with count `k > j`, `j`
calls of `unlock` by `t` all return 0, log nothing, take `j` off the count and
leave the mutex as it is. -/
theorem unlock_n_nested (t : Nat) (m : pthread_mutex) (j : Nat) (k : Nat) (hk : j < k) :
    unlock_n t j { mutex := m, lock_count := (k : Int), owner := t }
      = (List.replicate j 0,
          { mutex := m, lock_count := ((k - j : Nat) : Int), owner := t }, []) := by
  induction j generalizing k with
  | zero => simp [unlock_n]
  | succ j ih =>
    have h0 : ¬ ((k : Int) = 0) := by omega
    have h1 : ¬ ((k : Int) - 1 = 0) := by omega
    have hstep : unlock t { mutex := m, lock_count := (k : Int), owner := t }
        = (0, { mutex := m, lock_count := ((k - 1 : Nat) : Int), owner := t }, []) := by
      simp [unlock, h0, h1]
      omega
    have ih2 := ih (k - 1) (by omega)
    simp only [unlock_n, hstep, ih2, List.replicate_succ, List.append_nil]
    have e : k - 1 - j = k - (j + 1) := by omega
    rw [e]

/-- Releasing everything: when thread `t` owns the lock with count `k ≥ 1` and
holds the mutex, `k` calls of `unlock` by `t` all return 0, log nothing, bring
the count to 0 and release the mutex once. -/
theorem unlock_n_all (t : Nat) (nl nu : Nat) (k : Nat) (hk : 1 ≤ k) :
    unlock_n t k
        { mutex := { holder := some t, nlock := nl, nunlock := nu },
          lock_count := (k : Int), owner := t }
      = (List.replicate k 0,
          { mutex := { holder := none, nlock := nl, nunlock := nu + 1 },
            lock_count := 0, owner := t }, []) := by
  induction k with
  | zero => omega
  | succ k ih =>
    by_cases hk1 : k = 0
    · subst hk1
      simp [unlock_n, unlock, pthread_mutex_unlock]
    · have h0 : ¬ (((k + 1 : Nat) : Int) = 0) := by omega
      have h1 : ¬ (((k + 1 : Nat) : Int) - 1 = 0) := by omega
      have hstep : unlock t
          { mutex := { holder := some t, nlock := nl, nunlock := nu },
            lock_count := ((k + 1 : Nat) : Int), owner := t }
          = (0, { mutex := { holder := some t, nlock := nl, nunlock := nu },
                  lock_count := (k : Int), owner := t }, []) := by
        simp [unlock, hk1]
        omega
      have ih2 := ih (by omega)
      simp only [unlock_n, hstep, ih2, List.replicate_succ, List.append_nil]

/-- C6: from an unheld lock (count 0, mutex free) and for every N ≥ 1: the
first k of N calls of `lock` by thread `t` (1 ≤ k ≤ N) all return 0, acquire
the mutex exactly once and give count k, so the nested calls do not touch the
mutex; of the N calls of `unlock` by `t` that follow, the first j < N all
return 0 and leave the mutex held and its release counter unchanged, and all N
together return 0, end with count 0 and the mutex free after exactly one
release; a `lock` by any thread `t2` then returns 0, acquires the mutex and
leaves count 1 with `t2` as owner. -/
theorem lock_reentrancy (N : Nat) (hN : 1 ≤ N) (t t2 : Nat) (l : os_hnd_lock)
    (hcount : l.lock_count = 0) (hfree : l.mutex.holder = none) :
    (∀ k, 1 ≤ k → k ≤ N →
      lock_n t k l = some (List.replicate k 0,
        { mutex := { holder := some t, nlock := l.mutex.nlock + 1,
                     nunlock := l.mutex.nunlock },
          lock_count := (k : Int), owner := t }))
    ∧ (∀ j, j < N →
      unlock_n t j
          { mutex := { holder := some t, nlock := l.mutex.nlock + 1,
                       nunlock := l.mutex.nunlock },
            lock_count := (N : Int), owner := t }
        = (List.replicate j 0,
            { mutex := { holder := some t, nlock := l.mutex.nlock + 1,
                         nunlock := l.mutex.nunlock },
              lock_count := ((N - j : Nat) : Int), owner := t }, []))
    ∧ unlock_n t N
          { mutex := { holder := some t, nlock := l.mutex.nlock + 1,
                       nunlock := l.mutex.nunlock },
            lock_count := (N : Int), owner := t }
        = (List.replicate N 0,
            { mutex := { holder := none, nlock := l.mutex.nlock + 1,
                         nunlock := l.mutex.nunlock + 1 },
              lock_count := 0, owner := t }, [])
    ∧ lock t2
          { mutex := { holder := none, nlock := l.mutex.nlock + 1,
                       nunlock := l.mutex.nunlock + 1 },
            lock_count := 0, owner := t }
        = some (0,
            { mutex := { holder := some t2, nlock := l.mutex.nlock + 2,
                         nunlock := l.mutex.nunlock + 1 },
              lock_count := 1, owner := t2 }) := by
  obtain ⟨⟨holder, nl, nu⟩, count, o⟩ := l
  simp only at hcount hfree
  subst hcount hfree
  refine ⟨?_, ?_, ?_, ?_⟩
  · intro k hk1 _
    obtain ⟨k, rfl⟩ : ∃ k1, k = k1 + 1 := ⟨k - 1, by omega⟩
    have hfirst : lock t
          { mutex := { holder := none, nlock := nl, nunlock := nu },
            lock_count := 0, owner := o }
        = some (0,
            { mutex := { holder := some t, nlock := nl + 1, nunlock := nu },
              lock_count := ((1 : Nat) : Int), owner := t }) := by
      simp [lock, pthread_mutex_lock]
    have hrest := lock_n_nested t { holder := some t, nlock := nl + 1, nunlock := nu }
      k 1 (by omega)
    simp only [lock_n, hfirst, hrest, List.replicate_succ]
    have e : 1 + k = k + 1 := by omega
    rw [e]
  · intro j hj
    exact unlock_n_nested t _ j N hj
  · exact unlock_n_all t (nl + 1) nu N hN
  · simp [lock, pthread_mutex_lock]

/-- Witness for C6: three nested acquisitions and releases by thread 7 on a
newly created lock, then an acquisition by thread 8. -/
theorem lock_reentrancy_witness :
    ((new_lock 0).lock_count = 0 ∧ (new_lock 0).mutex.holder = none)
    ∧ lock_n 7 3 (new_lock 0)
        = some ([0, 0, 0],
            { mutex := { holder := some 7, nlock := 1, nunlock := 0 },
              lock_count := 3, owner := 7 })
    ∧ unlock_n 7 3
          { mutex := { holder := some 7, nlock := 1, nunlock := 0 },
            lock_count := 3, owner := 7 }
        = ([0, 0, 0],
            { mutex := { holder := none, nlock := 1, nunlock := 1 },
              lock_count := 0, owner := 7 }, [])
    ∧ lock 8
          { mutex := { holder := none, nlock := 1, nunlock := 1 },
            lock_count := 0, owner := 7 }
        = some (0,
            { mutex := { holder := some 8, nlock := 2, nunlock := 1 },
              lock_count := 1, owner := 8 }) :=
  have h := lock_reentrancy 3 (by decide) 7 8 (new_lock 0) (by decide) (by decide)
  ⟨by decide, h.1 3 (by decide) (by decide), h.2.2.1, h.2.2.2⟩

/-- C7 as stated fails: after one acquire and one release by thread 7 on a new
lock, a second release by thread 7 returns 0, logs "lock count went negative"
and decrements the count to -1, so the lock is changed; and a release by
thread 8 while thread 7 holds the lock twice logs "lock release by non-owner"
and still takes the count from 2 to 1. -/
theorem unlock_misuse_changes_lock :
    lock_n 7 1 (new_lock 0)
        = some ([0],
            { mutex := { holder := some 7, nlock := 1, nunlock := 0 },
              lock_count := 1, owner := 7 })
    ∧ unlock_n 7 2
          { mutex := { holder := some 7, nlock := 1, nunlock := 0 },
            lock_count := 1, owner := 7 }
        = ([0, 0],
            { mutex := { holder := none, nlock := 1, nunlock := 1 },
              lock_count := -1, owner := 7 },
            [LogRecord.fatal "lock count went negative"])
    ∧ unlock 8
          { mutex := { holder := some 7, nlock := 1, nunlock := 0 },
            lock_count := 2, owner := 7 }
        = (0,
            { mutex := { holder := some 7, nlock := 1, nunlock := 0 },
              lock_count := 1, owner := 7 },
            [LogRecord.fatal "lock release by non-owner"]) := by
  decide

/-- C7 as amended: `unlock` on a lock whose count is already 0, or by a thread
that is not the recorded owner, logs the matching fatal record and then goes on
as an ordinary unlock. The count is decremented; unless the count was 1 the
call returns 0 and leaves the mutex and the owner untouched (from 0 the count
becomes -1). When the count was 1, `pthread_mutex_unlock` is called for the
caller on the underlying mutex: its result is returned, and the count ends at
0 when it succeeded and back at 1 when it failed. -/
theorem unlock_misuse_logs_and_decrements (self : Nat) (l : os_hnd_lock)
    (hmis : l.lock_count = 0 ∨ self ≠ l.owner) :
    (l.lock_count = 0 →
      LogRecord.fatal "lock count went negative" ∈ (unlock self l).2.2)
    ∧ (self ≠ l.owner →
      LogRecord.fatal "lock release by non-owner" ∈ (unlock self l).2.2)
    ∧ (unlock self l).2.2 ≠ []
    ∧ (l.lock_count ≠ 1 →
      (unlock self l).1 = 0
      ∧ (unlock self l).2.1 = { l with lock_count := l.lock_count - 1 })
    ∧ (l.lock_count = 1 →
      (unlock self l).1 = (pthread_mutex_unlock l.mutex self).1
      ∧ (unlock self l).2.1.mutex = (pthread_mutex_unlock l.mutex self).2
      ∧ (unlock self l).2.1.owner = l.owner
      ∧ (unlock self l).2.1.lock_count
          = if (pthread_mutex_unlock l.mutex self).1 = 0 then 0 else 1) := by
  obtain ⟨m, count, o⟩ := l
  simp only at hmis
  refine ⟨?_, ?_, ?_, ?_, ?_⟩
  · intro h0
    simp only at h0
    subst h0
    simp [unlock]
  · intro ho
    simp only at ho
    by_cases h1 : count - 1 = 0 <;>
      by_cases h2 : (pthread_mutex_unlock m self).1 = 0 <;>
      simp [unlock, ho, h1, h2]
  · rcases hmis with h0 | ho
    · subst h0
      simp [unlock]
    · by_cases h1 : count - 1 = 0 <;>
        by_cases h2 : (pthread_mutex_unlock m self).1 = 0 <;>
        simp [unlock, ho, h1, h2]
  · intro hne
    simp only at hne
    have h1 : ¬ (count - 1 = 0) := by omega
    simp [unlock, h1]
  · intro h1
    simp only at h1
    subst h1
    by_cases h2 : (pthread_mutex_unlock m self).1 = 0 <;> simp [unlock, h2]

/-- Witness for the amended C7: the second release by thread 7 after one
acquire and one release. -/
theorem unlock_misuse_logs_and_decrements_witness :
    LogRecord.fatal "lock count went negative"
        ∈ (unlock 7 { mutex := { holder := none, nlock := 1, nunlock := 1 },
                      lock_count := 0, owner := 7 }).2.2
    ∧ (unlock 7 { mutex := { holder := none, nlock := 1, nunlock := 1 },
                  lock_count := 0, owner := 7 }).1 = 0
    ∧ (unlock 7 { mutex := { holder := none, nlock := 1, nunlock := 1 },
                  lock_count := 0, owner := 7 }).2.1
        = { mutex := { holder := none, nlock := 1, nunlock := 1 },
            lock_count := -1, owner := 7 } :=
  have h := unlock_misuse_logs_and_decrements 7
    { mutex := { holder := none, nlock := 1, nunlock := 1 }, lock_count := 0, owner := 7 }
    (Or.inl rfl)
  ⟨h.1 rfl, (h.2.2.2.1 (by decide)).1, (h.2.2.2.1 (by decide)).2⟩

/-! ## Theorems: timers -/

/-- The carry loop of `start_timer` ends for every input, keeps the total
number of microseconds, and from a non-negative microsecond part leaves one in
the range 0 to 999999. -/
theorem start_timer_loop_spec (sec usec : Int) (h : 0 ≤ usec) :
    0 ≤ (start_timer_loop sec usec).2
    ∧ (start_timer_loop sec usec).2 < 1000000
    ∧ (start_timer_loop sec usec).1 * 1000000 + (start_timer_loop sec usec).2
        = sec * 1000000 + usec := by
  induction sec, usec using start_timer_loop.induct with
  | case1 sec usec hge ih =>
    rw [start_timer_loop, if_pos hge]
    have := ih (by omega)
    omega
  | case2 sec usec hlt =>
    rw [start_timer_loop, if_neg hlt]
    exact ⟨h, by omega, rfl⟩

/-- A value in the signed 64-bit range is stored as it is. -/
theorem wrap_long_of_range (x : Int) (h1 : -9223372036854775808 ≤ x)
    (h2 : x ≤ 9223372036854775807) : wrap_long x = x := by
  unfold wrap_long
  omega

/-- As long as the seconds, with all carries added, stay in the signed 64-bit
range, the carry loop with 64-bit additions computes what the loop with exact
additions computes. -/
theorem start_timer_loop_long_eq (sec usec : Int) (hu : 0 ≤ usec)
    (hlo : -9223372036854775808 ≤ sec)
    (hhi : sec + usec / 1000000 ≤ 9223372036854775807) :
    start_timer_loop_long sec usec = start_timer_loop sec usec := by
  induction sec, usec using start_timer_loop.induct with
  | case1 sec usec hge ih =>
    have hw : wrap_long (sec + 1) = sec + 1 :=
      wrap_long_of_range _ (by omega) (by omega)
    rw [start_timer_loop_long, if_pos hge, hw, ih (by omega) (by omega) (by omega)]
    conv_rhs => rw [start_timer_loop, if_pos hge]
  | case2 sec usec hlt =>
    rw [start_timer_loop_long, if_neg hlt, start_timer_loop, if_neg hlt]

/-- On inputs whose sums stay in the signed 64-bit range, `start_timer_long`
and `start_timer` are the same function. -/
theorem start_timer_long_eq {σ : Type} (sel_start_timer : σ → timeval → Int × σ)
    (now timeout : timeval) (id : os_hnd_timer_id σ) (timed_out cb_data : Nat)
    (hu : 0 ≤ now.tv_usec + timeout.tv_usec)
    (husec : now.tv_usec + timeout.tv_usec ≤ 9223372036854775807)
    (hlo : -9223372036854775808 ≤ now.tv_sec + timeout.tv_sec)
    (hhi : now.tv_sec + timeout.tv_sec + (now.tv_usec + timeout.tv_usec) / 1000000
      ≤ 9223372036854775807) :
    start_timer_long sel_start_timer now id timeout timed_out cb_data
      = start_timer sel_start_timer now id timeout timed_out cb_data := by
  have hw1 : wrap_long (now.tv_sec + timeout.tv_sec) = now.tv_sec + timeout.tv_sec :=
    wrap_long_of_range _ hlo (by omega)
  have hw2 : wrap_long (now.tv_usec + timeout.tv_usec) = now.tv_usec + timeout.tv_usec :=
    wrap_long_of_range _ (by omega) husec
  have hl := start_timer_loop_long_eq (now.tv_sec + timeout.tv_sec)
    (now.tv_usec + timeout.tv_usec) hu hlo hhi
  simp only [start_timer_long, start_timer, hw1, hw2, hl]

/-- C8 as stated fails. With now = (10, 900000) and the timeout
(9223372036854775807, 500000), whose microsecond part is not negative, the
64-bit sum of the seconds wraps around: `start_timer` on the idle sample timer
arms the deadline (-9223372036854775798, 400000), and
S * 1000000 + U is not (s + ts) * 1000000 + (u + tu). With the timeout
(1, 9223372036854775807) the sum of the microseconds wraps to a negative
value, the loop does not run, and the armed U is negative. -/
theorem start_timer_long_overflow :
    start_timer_long sample_sel_start_timer { tv_sec := 10, tv_usec := 900000 } sample_timer
        { tv_sec := 9223372036854775807, tv_usec := 500000 } 3 4
      = (0, { cb_data := 4, timed_out := 3,
              timer := some { tv_sec := -9223372036854775798, tv_usec := 400000 },
              running := 1 })
    ∧ ¬ ((-9223372036854775798 : Int) * 1000000 + 400000
          = (10 + 9223372036854775807) * 1000000 + (900000 + 500000))
    ∧ start_timer_long sample_sel_start_timer { tv_sec := 10, tv_usec := 900000 }
          sample_timer { tv_sec := 1, tv_usec := 9223372036854775807 } 3 4
        = (0, { cb_data := 4, timed_out := 3,
                timer := some { tv_sec := 11, tv_usec := -9223372036853875809 },
                running := 1 })
    ∧ ¬ ((0 : Int) ≤ -9223372036853875809) := by
  have w1 : wrap_long (10 + 9223372036854775807) = -9223372036854775799 := by decide
  have w2 : wrap_long (900000 + 500000) = 1400000 := by decide
  have w3 : wrap_long (-9223372036854775799 + 1) = -9223372036854775798 := by decide
  have w4 : wrap_long (10 + 1) = 11 := by decide
  have w5 : wrap_long (900000 + 9223372036854775807) = -9223372036853875809 := by decide
  have e1 : start_timer_loop_long (-9223372036854775799) 1400000
      = (-9223372036854775798, 400000) := by
    rw [start_timer_loop_long, if_pos (by decide), w3, start_timer_loop_long,
      if_neg (by decide)]
    rfl
  have e2 : start_timer_loop_long 11 (-9223372036853875809)
      = (11, -9223372036853875809) := by
    rw [start_timer_loop_long, if_neg (by decide)]
  refine ⟨?_, by decide, ?_, by decide⟩
  · simp only [start_timer_long, sample_timer, sample_sel_start_timer, w1, w2, e1]
    rfl
  · simp only [start_timer_long, sample_timer, sample_sel_start_timer, w4, w5, e2]
    rfl

/-- C8 as amended: on a timer that is not running, for a current time and a
timeout whose microsecond parts are not negative (that of the timeout may be a
million or more) and whose sums stay in the signed 64-bit range of `time_t`
and `suseconds_t` (the sum of the microseconds, and the sum of the seconds
with the carries added), `start_timer` passes to the selector a deadline
(S, U) with 0 ≤ U < 1000000 and
S * 1000000 + U = (s + ts) * 1000000 + (u + tu); it returns what the selector
call returns and stores the running flag, the callback and its context. -/
theorem start_timer_long_deadline {σ : Type} (sel_start_timer : σ → timeval → Int × σ)
    (now timeout : timeval) (id : os_hnd_timer_id σ) (timed_out cb_data : Nat)
    (hrun : id.running = 0) (hu0 : 0 ≤ now.tv_usec) (htu : 0 ≤ timeout.tv_usec)
    (husec : now.tv_usec + timeout.tv_usec ≤ 9223372036854775807)
    (hlo : -9223372036854775808 ≤ now.tv_sec + timeout.tv_sec)
    (hhi : now.tv_sec + timeout.tv_sec + (now.tv_usec + timeout.tv_usec) / 1000000
      ≤ 9223372036854775807) :
    ∃ S U : Int, 0 ≤ U ∧ U < 1000000
      ∧ S * 1000000 + U
          = (now.tv_sec + timeout.tv_sec) * 1000000 + (now.tv_usec + timeout.tv_usec)
      ∧ start_timer_long sel_start_timer now id timeout timed_out cb_data
          = ((sel_start_timer id.timer { tv_sec := S, tv_usec := U }).1,
              { cb_data := cb_data, timed_out := timed_out,
                timer := (sel_start_timer id.timer { tv_sec := S, tv_usec := U }).2,
                running := 1 }) := by
  obtain ⟨h1, h2, h3⟩ := start_timer_loop_spec (now.tv_sec + timeout.tv_sec)
    (now.tv_usec + timeout.tv_usec) (by omega)
  refine ⟨_, _, h1, h2, h3, ?_⟩
  rw [start_timer_long_eq sel_start_timer now timeout id timed_out cb_data (by omega)
    husec hlo hhi]
  simp [start_timer, hrun]

/-- Witness for the amended C8, the example of the claim: now = (10, 900000)
and timeout = (1, 500000) arm the selector timer with the deadline
(12, 400000). -/
theorem start_timer_long_deadline_witness :
    start_timer_long sample_sel_start_timer { tv_sec := 10, tv_usec := 900000 } sample_timer
        { tv_sec := 1, tv_usec := 500000 } 3 4
      = (0, { cb_data := 4, timed_out := 3,
              timer := some { tv_sec := 12, tv_usec := 400000 }, running := 1 }) := by
  obtain ⟨S, U, h0, h1, h2, h3⟩ :=
    start_timer_long_deadline sample_sel_start_timer { tv_sec := 10, tv_usec := 900000 }
      { tv_sec := 1, tv_usec := 500000 } sample_timer 3 4 (by decide) (by decide)
      (by decide) (by decide) (by decide) (by decide)
  simp only at h2
  have hS : S = 12 := by omega
  have hU : U = 400000 := by omega
  subst hS hU
  rw [h3]
  rfl

/-- C9, what the code does: a timer is started successfully (running becomes
1), then `stop_timer` is called and the selector disarms its timer and reports
success, yet the running flag of the handle is still 1 and the next
`start_timer` on the handle is rejected with `EBUSY`; the expiry path
`timer_handler` does clear the flag. -/
theorem stop_timer_leaves_running_set :
    (start_timer sample_sel_start_timer { tv_sec := 10, tv_usec := 900000 } sample_timer
        { tv_sec := 1, tv_usec := 500000 } 3 4)
      = (0, { cb_data := 4, timed_out := 3,
              timer := some { tv_sec := 12, tv_usec := 400000 }, running := 1 })
    ∧ stop_timer sample_sel_stop_timer
          { cb_data := 4, timed_out := 3,
            timer := some { tv_sec := 12, tv_usec := 400000 }, running := 1 }
        = (0, { cb_data := 4, timed_out := 3, timer := none, running := 1 })
    ∧ start_timer sample_sel_start_timer { tv_sec := 11, tv_usec := 0 }
          { cb_data := 4, timed_out := 3, timer := none, running := 1 }
          { tv_sec := 1, tv_usec := 0 } 3 4
        = (EBUSY, { cb_data := 4, timed_out := 3, timer := none, running := 1 })
    ∧ (timer_handler
          ({ cb_data := 4, timed_out := 3,
             timer := some { tv_sec := 12, tv_usec := 400000 },
             running := 1 } : os_hnd_timer_id (Option timeval))).2.running = 0 := by
  refine ⟨?_, by decide, by decide, by decide⟩
  have e1 : start_timer_loop 11 1400000 = (12, 400000) := by
    rw [start_timer_loop, if_pos (by decide), start_timer_loop, if_neg (by decide)]
    rfl
  simp [start_timer, sample_timer, sample_sel_start_timer, e1]

/-- C10: `start_timer` on a handle whose running flag is set returns `EBUSY`
and hands back the handle unchanged (running flag, callback, context and
selector timer), whatever the selector call would do: the selector timer is not
armed again. -/
theorem start_timer_busy {σ : Type} (sel_start_timer : σ → timeval → Int × σ)
    (now timeout : timeval) (id : os_hnd_timer_id σ) (timed_out cb_data : Nat)
    (hrun : id.running ≠ 0) :
    start_timer sel_start_timer now id timeout timed_out cb_data = (EBUSY, id) := by
  simp [start_timer, hrun]

/-- Witness for C10: a running handle armed for (12, 400000), a selector call
that would arm any timer it is given, and a new callback 8 with context 9. -/
theorem start_timer_busy_witness :
    start_timer (fun (_ : Option timeval) d => ((0 : Int), some d))
        { tv_sec := 11, tv_usec := 0 }
        { cb_data := 4, timed_out := 3,
          timer := some { tv_sec := 12, tv_usec := 400000 }, running := 1 }
        { tv_sec := 1, tv_usec := 0 } 8 9
      = (EBUSY, { cb_data := 4, timed_out := 3,
                  timer := some { tv_sec := 12, tv_usec := 400000 }, running := 1 }) :=
  start_timer_busy _ _ _ _ 8 9 (by decide)

/-! ## Theorems: console registry -/

/-- The chain predicate only looks at the link fields of the listed records. -/
theorem reg_chain_frame (m1 m2 : console_registry) (l : List Nat) (p h : Nat)
    (hagree : ∀ x ∈ l, m1.prev x = m2.prev x ∧ m1.next x = m2.next x)
    (hc : reg_chain m1 p h l) : reg_chain m2 p h l := by
  induction l generalizing p h with
  | nil => exact hc
  | cons x xs ih =>
    obtain ⟨h1, h2, h3, h4⟩ := hc
    have hx := hagree x (List.mem_cons_self x xs)
    refine ⟨h1, h2, hx.1 ▸ h3, ?_⟩
    rw [← hx.2]
    exact ih x (m1.next x) (fun y hy => hagree y (List.mem_cons_of_mem x hy)) h4

/-- No record of a chain is `NULL`. -/
theorem reg_chain_nonzero (m : console_registry) (l : List Nat) (p h : Nat)
    (hc : reg_chain m p h l) : 0 ∉ l := by
  induction l generalizing p h with
  | nil => simp
  | cons x xs ih =>
    obtain ⟨_, h2, _, h4⟩ := hc
    intro h0
    rcases List.mem_cons.mp h0 with h0 | h0
    · exact h2 h0.symm
    · exact ih x (m.next x) h4 h0

/-- In a chain the forward link of a member is `NULL` or a member that points
back to it. -/
theorem reg_chain_next (m : console_registry) (l : List Nat) (p h : Nat)
    (hc : reg_chain m p h l) (x : Nat) (hx : x ∈ l) (hn : m.next x ≠ 0) :
    m.next x ∈ l ∧ m.prev (m.next x) = x := by
  induction l generalizing p h with
  | nil => simp at hx
  | cons y ys ih =>
    obtain ⟨_, _, _, h4⟩ := hc
    rcases List.mem_cons.mp hx with hxy | hxy
    · subst hxy
      cases ys with
      | nil => exact absurd h4 hn
      | cons z zs =>
        obtain ⟨e1, _, e3, _⟩ := h4
        rw [e1]
        exact ⟨by simp, e3⟩
    · obtain ⟨r1, r2⟩ := ih y (m.next y) h4 hxy
      exact ⟨List.mem_cons_of_mem y r1, r2⟩

/-- In a chain without repetition a member is either the entry record, whose
back link is the address the chain was entered from, or its back link is a
member. -/
theorem reg_chain_prev (m : console_registry) (l : List Nat) (p h : Nat)
    (hc : reg_chain m p h l) (hnd : l.Nodup) (a : Nat) (ha : a ∈ l) :
    (a = h ∧ m.prev a = p) ∨ (a ≠ h ∧ m.prev a ∈ l) := by
  induction l generalizing p h with
  | nil => simp at ha
  | cons y ys ih =>
    obtain ⟨h1, _, h3, h4⟩ := hc
    obtain ⟨hy, hys⟩ := List.nodup_cons.mp hnd
    rcases List.mem_cons.mp ha with hay | hay
    · subst hay
      exact Or.inl ⟨h1.symm, h3⟩
    · have hne : a ≠ h := by
        intro e
        rw [e, h1] at hay
        exact hy hay
      rcases ih y (m.next y) h4 hys hay with ⟨_, r2⟩ | ⟨_, r2⟩
      · exact Or.inr ⟨hne, by rw [r2]; exact List.mem_cons_self y ys⟩
      · exact Or.inr ⟨hne, List.mem_cons_of_mem y r2⟩

/-- Walking a chain with one step of fuel more than it has records visits
exactly its records, in order, and stops at `NULL`. -/
theorem registry_walk_chain (m : console_registry) (l : List Nat) (p h : Nat)
    (hc : reg_chain m p h l) : registry_walk m (l.length + 1) h = l := by
  induction l generalizing p h with
  | nil =>
    have h0 : h = 0 := hc
    simp [registry_walk, h0]
  | cons x xs ih =>
    obtain ⟨h1, h2, _, h4⟩ := hc
    subst h1
    have e : registry_walk m (xs.length + 1 + 1) h
        = if h = 0 then [] else h :: registry_walk m (xs.length + 1) (m.next h) := rfl
    rw [List.length_cons, e, if_neg h2, ih h (m.next h) h4]

/-- Linking a new record in front of a well-formed registry gives a
well-formed registry with the new record as head. -/
theorem console_link_chain (m : console_registry) (l : List Nat) (a : Nat)
    (hc : reg_chain m 0 m.consoles l) (hnd : l.Nodup) (ha0 : a ≠ 0) (hal : a ∉ l) :
    reg_chain (console_link m a) 0 (console_link m a).consoles (a :: l) := by
  have hnext : ∀ z, z ≠ a → (console_link m a).next z = m.next z := by
    intro z hz
    simp [console_link, Function.update_noteq hz]
  have hnexta : (console_link m a).next a = m.consoles := by
    simp [console_link]
  refine ⟨rfl, ha0, by simp [console_link], ?_⟩
  rw [hnexta]
  cases l with
  | nil => exact hc
  | cons x xs =>
    obtain ⟨h1, h2, _, h4⟩ := hc
    obtain ⟨hx, _⟩ := List.nodup_cons.mp hnd
    have hxa : x ≠ a := fun e => hal (by rw [e]; exact List.mem_cons_self a xs)
    have hprevx : (console_link m a).prev x = a := by
      simp [console_link, h1, h2, Function.update_noteq hxa]
    have hprev : ∀ z, z ≠ a → z ≠ x → (console_link m a).prev z = m.prev z := by
      intro z hza hzx
      simp [console_link, h1, h2, Function.update_noteq hza, Function.update_noteq hzx]
    refine ⟨h1, h2, hprevx, ?_⟩
    rw [hnext x hxa]
    refine reg_chain_frame m (console_link m a) xs x (m.next x) ?_ h4
    intro z hz
    have hza : z ≠ a := fun e => hal (by rw [← e]; exact List.mem_cons_of_mem x hz)
    have hzx : z ≠ x := fun e => hx (by rw [← e]; exact hz)
    exact ⟨(hprev z hza hzx).symm, (hnext z hza).symm⟩

/-- The fields of the registry after unlinking the record `a`, in terms of
the two links of `a` before the call. -/
theorem console_unlink_fields (m : console_registry) (a : Nat) :
    (console_unlink m a).consoles = (if m.prev a ≠ 0 then m.consoles else m.next a)
    ∧ (console_unlink m a).next
        = (if m.prev a ≠ 0 then Function.update m.next (m.prev a) (m.next a) else m.next)
    ∧ (console_unlink m a).prev
        = (if m.next a ≠ 0 then Function.update m.prev (m.next a) (m.prev a) else m.prev) := by
  have hupd : Function.update m.next (m.prev a) (m.next a) a = m.next a := by
    rw [Function.update_apply]
    split <;> rfl
  by_cases hp : m.prev a ≠ 0 <;> by_cases hn : m.next a ≠ 0 <;>
    simp [console_unlink, hp, hn, hupd]

/-- Unlinking a member from a chain without repetition, entered from an
address `p` that is not a member: what is left is a chain of the other
members, entered from `p` through the old entry pointer, or through the
forward link of the unlinked record when that record was the entry. -/
theorem console_unlink_chain_aux (m : console_registry) (a : Nat) (l : List Nat) (p h : Nat)
    (hc : reg_chain m p h l) (hnd : l.Nodup) (ha : a ∈ l) (hp : p ∉ l) :
    reg_chain (console_unlink m a) p (if h = a then m.next a else h) (l.erase a) := by
  obtain ⟨_, fnext, fprev⟩ := console_unlink_fields m a
  induction l generalizing p h with
  | nil => simp at ha
  | cons x xs ih =>
    obtain ⟨h1, h2, h3, h4⟩ := hc
    obtain ⟨hx, hxs⟩ := List.nodup_cons.mp hnd
    have hpx : p ≠ x := fun e => hp (by rw [e]; exact List.mem_cons_self x xs)
    have hpxs : p ∉ xs := fun e => hp (List.mem_cons_of_mem x e)
    by_cases hax : a = x
    · subst hax
      rw [List.erase_cons_head, if_pos h1]
      cases xs with
      | nil => exact h4
      | cons y ys =>
        obtain ⟨e1, e2, e3, e4⟩ := h4
        obtain ⟨hy, _⟩ := List.nodup_cons.mp hxs
        have hay : a ≠ y := fun e => hx (by rw [e]; exact List.mem_cons_self y ys)
        have hyp : y ≠ p := fun e => hpxs (by rw [← e]; exact List.mem_cons_self y ys)
        have hn0 : m.next a ≠ 0 := by rw [e1]; exact e2
        have hnexty : (console_unlink m a).next y = m.next y := by
          rw [fnext, h3]
          split
          · rw [Function.update_noteq hyp]
          · rfl
        have hprevy : (console_unlink m a).prev y = p := by
          rw [fprev, if_pos hn0, e1, Function.update_same, h3]
        refine ⟨e1, e2, hprevy, ?_⟩
        rw [hnexty]
        refine reg_chain_frame m (console_unlink m a) ys y (m.next y) ?_ e4
        intro z hz
        have hzy : z ≠ y := fun e => hy (by rw [← e]; exact hz)
        have hzp : z ≠ p := fun e => hpxs (by rw [← e]; exact List.mem_cons_of_mem y hz)
        constructor
        · rw [fprev, if_pos hn0, e1, Function.update_noteq hzy]
        · rw [fnext, h3]
          split
          · rw [Function.update_noteq hzp]
          · rfl
    · have haxs : a ∈ xs := by
        rcases List.mem_cons.mp ha with e | e
        · exact absurd e hax
        · exact e
      have hha : ¬ (h = a) := fun e => hax (by rw [← e, h1])
      have hbeq : ¬ (x == a) = true := by
        simp only [beq_iff_eq]
        exact fun e => hax e.symm
      rw [List.erase_cons_tail hbeq, if_neg hha]
      have hprevx : (console_unlink m a).prev x = p := by
        rw [fprev]
        split
        · rename_i hn
          have hmem := (reg_chain_next m xs x (m.next x) h4 a haxs hn).1
          have hne : x ≠ m.next a := fun e => hx (by rw [e]; exact hmem)
          rw [Function.update_noteq hne, h3]
        · exact h3
      have hnextx : (console_unlink m a).next x
          = (if m.next x = a then m.next a else m.next x) := by
        rcases reg_chain_prev m xs x (m.next x) h4 hxs a haxs with ⟨r1, r2⟩ | ⟨r1, r2⟩
        · have e1 : (if m.next x = a then m.next a else m.next x) = m.next a :=
            if_pos r1.symm
          rw [e1, fnext, r2, if_pos h2, Function.update_same]
        · have hne : x ≠ m.prev a := fun e => hx (by rw [e]; exact r2)
          have e1 : (if m.next x = a then m.next a else m.next x) = m.next x :=
            if_neg (fun e => r1 e.symm)
          rw [e1, fnext]
          split
          · rw [Function.update_noteq hne]
          · rfl
      refine ⟨h1, h2, hprevx, ?_⟩
      rw [hnextx]
      exact ih x (m.next x) h4 hxs haxs hx

/-- Unlinking a member of a well-formed registry gives a well-formed registry
of the remaining members. -/
theorem console_unlink_chain (m : console_registry) (l : List Nat) (a : Nat)
    (hc : reg_chain m 0 m.consoles l) (hnd : l.Nodup) (ha : a ∈ l) :
    reg_chain (console_unlink m a) 0 (console_unlink m a).consoles (l.erase a) := by
  have h0 := reg_chain_nonzero m l 0 m.consoles hc
  have haux := console_unlink_chain_aux m a l 0 m.consoles hc hnd ha h0
  have hcons : (console_unlink m a).consoles
      = (if m.consoles = a then m.next a else m.consoles) := by
    rw [(console_unlink_fields m a).1]
    rcases reg_chain_prev m l 0 m.consoles hc hnd a ha with ⟨r1, r2⟩ | ⟨r1, r2⟩
    · simp [r1.symm, r2]
    · have hpa : m.prev a ≠ 0 := fun e => h0 (by rw [← e]; exact r2)
      rw [if_pos hpa, if_neg (fun e => r1 e.symm)]
  rw [hcons]
  exact haux

/-- An admissible history keeps a well-formed registry well formed: the
registry is a chain of the live sessions, no session is listed twice, and the
member count grows by the accepts and shrinks by the closes. -/
theorem reg_run_chain (ops : List RegistryOp) (m : console_registry) (l : List Nat)
    (hc : reg_chain m 0 m.consoles l) (hnd : l.Nodup)
    (hv : reg_ops_valid l ops = true) :
    reg_chain (reg_run m ops) 0 (reg_run m ops).consoles (live_run l ops)
    ∧ (live_run l ops).Nodup
    ∧ (live_run l ops).length + reg_removes ops = l.length + reg_inserts ops := by
  induction ops generalizing m l with
  | nil => exact ⟨hc, hnd, rfl⟩
  | cons op ops ih =>
    cases op with
    | accept a =>
      simp only [reg_ops_valid, Bool.and_eq_true, decide_eq_true_eq] at hv
      obtain ⟨⟨ha0, hal⟩, hrest⟩ := hv
      have hc2 := console_link_chain m l a hc hnd ha0 hal
      have hnd2 : (a :: l).Nodup := List.nodup_cons.mpr ⟨hal, hnd⟩
      obtain ⟨r1, r2, r3⟩ := ih (console_link m a) (a :: l) hc2 hnd2 hrest
      refine ⟨r1, r2, ?_⟩
      have e : (live_run l (RegistryOp.accept a :: ops)) = live_run (a :: l) ops := rfl
      rw [e]
      simp only [reg_removes, reg_inserts, List.length_cons] at r3 ⊢
      omega
    | close a =>
      simp only [reg_ops_valid, Bool.and_eq_true, decide_eq_true_eq] at hv
      obtain ⟨hal, hrest⟩ := hv
      have hc2 := console_unlink_chain m l a hc hnd hal
      have hnd2 : (l.erase a).Nodup := hnd.erase a
      obtain ⟨r1, r2, r3⟩ := ih (console_unlink m a) (l.erase a) hc2 hnd2 hrest
      refine ⟨r1, r2, ?_⟩
      have e : (live_run l (RegistryOp.close a :: ops)) = live_run (l.erase a) ops := rfl
      rw [e]
      have hlen := List.length_erase_of_mem hal
      have hpos : 0 < l.length := List.length_pos_of_mem hal
      simp only [reg_removes, reg_inserts] at r3 ⊢
      omega

/-- Every initial part of an admissible history is admissible. -/
theorem reg_ops_valid_take (ops : List RegistryOp) (l : List Nat) (k : Nat)
    (hv : reg_ops_valid l ops = true) : reg_ops_valid l (ops.take k) = true := by
  induction ops generalizing l k with
  | nil => simp [reg_ops_valid]
  | cons op ops ih =>
    cases k with
    | zero => simp [reg_ops_valid]
    | succ k =>
      cases op with
      | accept a =>
        simp only [reg_ops_valid, Bool.and_eq_true, decide_eq_true_eq, List.take_succ_cons]
          at hv ⊢
        exact ⟨hv.1, ih (a :: l) k hv.2⟩
      | close a =>
        simp only [reg_ops_valid, Bool.and_eq_true, decide_eq_true_eq, List.take_succ_cons]
          at hv ⊢
        exact ⟨hv.1, ih (l.erase a) k hv.2⟩

/-- An admissible history split in two: the first part is admissible, and the
second part is admissible from the live sessions the first part leaves. -/
theorem reg_ops_valid_append (pre rest : List RegistryOp) (l : List Nat)
    (hv : reg_ops_valid l (pre ++ rest) = true) :
    reg_ops_valid l pre = true ∧ reg_ops_valid (live_run l pre) rest = true := by
  induction pre generalizing l with
  | nil => exact ⟨rfl, hv⟩
  | cons op pre ih =>
    cases op with
    | accept b =>
      simp only [List.cons_append, reg_ops_valid, Bool.and_eq_true] at hv ⊢
      obtain ⟨r1, r2⟩ := ih (b :: l) hv.2
      exact ⟨⟨hv.1, r1⟩, r2⟩
    | close b =>
      simp only [List.cons_append, reg_ops_valid, Bool.and_eq_true] at hv ⊢
      obtain ⟨r1, r2⟩ := ih (l.erase b) hv.2
      exact ⟨⟨hv.1, r1⟩, r2⟩

/-- What the linking and unlinking statements do keep, on their own: start
from an empty registry (`consoles` is `NULL`) and take any admissible history
of accepts and closes, that is one in which every accepted record is new to
the registry. After each step (after the first `k`
steps, for every `k`) the registry `st` and the list `live` of sessions
accepted and not closed satisfy: the records reached from `st.consoles` form a
doubly linked chain of exactly the live sessions; the walk along `next` visits
exactly them and ends at `NULL`; no session occurs twice; the member count plus
the closes equals the accepts; the back link of the head is `NULL`; the forward
link of a member is `NULL` or a member that points back to it; the back link of
a member is `NULL` or a member; a session just accepted is the head; and a
session just closed is no member and no link of a member refers to it. -/
theorem registry_invariant (m : console_registry) (hinit : m.consoles = 0)
    (ops : List RegistryOp) (hv : reg_ops_valid [] ops = true) (k : Nat)
    (st : console_registry) (live : List Nat)
    (hst : st = reg_run m (ops.take k)) (hlive : live = live_run [] (ops.take k)) :
    reg_chain st 0 st.consoles live
    ∧ registry_walk st (live.length + 1) st.consoles = live
    ∧ live.Nodup
    ∧ live.length + reg_removes (ops.take k) = reg_inserts (ops.take k)
    ∧ (st.consoles ≠ 0 → st.prev st.consoles = 0)
    ∧ (∀ x ∈ live, st.next x ≠ 0 → st.next x ∈ live ∧ st.prev (st.next x) = x)
    ∧ (∀ x ∈ live, st.prev x ≠ 0 → st.prev x ∈ live)
    ∧ (∀ pre a, ops.take k = pre ++ [RegistryOp.accept a] → st.consoles = a)
    ∧ (∀ pre a, ops.take k = pre ++ [RegistryOp.close a] →
        a ∉ live ∧ ∀ x ∈ live, st.prev x ≠ a ∧ st.next x ≠ a) := by
  have hv2 := reg_ops_valid_take ops [] k hv
  have hc0 : reg_chain m 0 m.consoles [] := hinit
  obtain ⟨hchain, hnd, hlen⟩ := reg_run_chain (ops.take k) m [] hc0 List.nodup_nil hv2
  rw [← hst, ← hlive] at hchain
  rw [← hlive] at hnd hlen
  have hnext := reg_chain_next st live 0 st.consoles hchain
  have hprev : ∀ x ∈ live, st.prev x ≠ 0 → st.prev x ∈ live := by
    intro x hx hp
    rcases reg_chain_prev st live 0 st.consoles hchain hnd x hx with ⟨_, r2⟩ | ⟨_, r2⟩
    · exact absurd r2 hp
    · exact r2
  have h0 := reg_chain_nonzero st live 0 st.consoles hchain
  refine ⟨hchain, registry_walk_chain st live 0 st.consoles hchain, hnd, ?_, ?_, hnext,
    hprev, ?_, ?_⟩
  · simpa using hlen
  · intro hne
    cases live with
    | nil => exact absurd hchain hne
    | cons x xs =>
      obtain ⟨e1, _, e3, _⟩ := hchain
      rw [e1]
      exact e3
  · intro pre a he
    rw [hst, he, reg_run, List.foldl_append]
    rfl
  · intro pre a he
    have hvpre : reg_ops_valid [] (pre ++ [RegistryOp.close a]) = true := by
      rw [← he]
      exact hv2
    obtain ⟨hvp, hvc⟩ := reg_ops_valid_append pre [RegistryOp.close a] [] hvpre
    obtain ⟨hcp, hndp, _⟩ := reg_run_chain pre m [] hc0 List.nodup_nil hvp
    have hamem : a ∈ live_run [] pre := by
      simpa [reg_ops_valid] using hvc
    have ha0 : a ≠ 0 := fun e => reg_chain_nonzero _ _ 0 _ hcp (e ▸ hamem)
    have hl : live = (live_run [] pre).erase a := by
      rw [hlive, he, live_run, List.foldl_append]
      rfl
    have hanot : a ∉ live := by
      rw [hl]
      exact fun hmem => ((hndp.mem_erase_iff).mp hmem).1 rfl
    refine ⟨hanot, ?_⟩
    intro x hx
    constructor
    · intro e
      exact hanot (e ▸ hprev x hx (by rw [e]; exact ha0))
    · intro e
      exact hanot (e ▸ (hnext x hx (by rw [e]; exact ha0)).1)

/-- The sample history on an empty registry whose unallocated link fields hold
99, as an instance of `registry_invariant`. After its four steps the walk from the head visits the
records 3 and 1, which are the live sessions, and three accepts less one close
leave two members. -/
theorem registry_invariant_witness :
    ((empty_registry (fun _ => 99)).consoles = 0
      ∧ reg_ops_valid [] sample_history = true)
    ∧ registry_walk (reg_run (empty_registry (fun _ => 99)) (sample_history.take 4))
        ((live_run [] (sample_history.take 4)).length + 1)
        (reg_run (empty_registry (fun _ => 99)) (sample_history.take 4)).consoles
      = live_run [] (sample_history.take 4)
    ∧ live_run [] (sample_history.take 4) = [3, 1]
    ∧ (live_run [] (sample_history.take 4)).length + reg_removes (sample_history.take 4)
        = reg_inserts (sample_history.take 4) :=
  have h := registry_invariant (empty_registry (fun _ => 99)) rfl sample_history
    (by decide) 4 _ _ rfl rfl
  ⟨⟨rfl, by decide⟩, h.2.1, by decide, h.2.2.2.1⟩

/-- Whatever the registration returns, `console_bind_ready` links the new
record: for an accepted connection and a record that is not `NULL` the registry
afterwards is the one the linking statements give, also when `err` is not 0. -/
theorem console_bind_ready_links (misc : console_registry) (rv : Int) (newcon : Nat)
    (err : Int) (hrv : 0 ≤ rv) (hcon : newcon ≠ 0) :
    (console_bind_ready misc rv newcon err).1 = console_link misc newcon := by
  have hnrv : ¬ rv < 0 := by omega
  simp only [console_bind_ready, if_neg hnrv, if_neg hcon]

/-- Closing a session that does not shut the simulator down unlinks its
record. -/
theorem user_data_ready_closeit_unlinks (misc : console_registry) (info conid : Nat)
    (fd : Int) :
    (user_data_ready_closeit misc info 0 conid fd).1 = console_unlink misc info := by
  simp [user_data_ready_closeit]

/-- C11, what the code does. From an empty registry `console_bind_ready`
accepts a first connection (record 1). A second accept gets record 2, its
registration fails, and the callback frees record 2 and links it all the same:
the walk from the head visits the freed record 2 and then 1, and the back link
of the live session 1 points to the freed record; when session 1 is then
closed, the freed record 2 is left as the only member although no session is
live. A third accept (after the failed one) for which
`malloc` hands out the address 2 again links record 2 in front of itself: its
forward link is its own address, the walk from the head never reaches `NULL`
and never reaches session 1. Apart from that, on a head that was never
assigned and holds the address 5, the first accept links record 1 in front of
that address: the walk visits 1 and then 5, which is no session. -/
theorem registry_broken_by_failed_accept :
    SysCall.free 2 ∈ (console_bind_ready registry_after_accept 8 2 ENOMEM).2
    ∧ registry_walk registry_after_failed_accept 4 registry_after_failed_accept.consoles
        = [2, 1]
    ∧ registry_after_failed_accept.prev 1 = 2
    ∧ (user_data_ready_closeit registry_after_failed_accept 1 0 71 7).2
        = [SysCall.remove_fd_to_wait_for 71, SysCall.close 7, SysCall.free 1]
    ∧ registry_walk (user_data_ready_closeit registry_after_failed_accept 1 0 71 7).1 4
          (user_data_ready_closeit registry_after_failed_accept 1 0 71 7).1.consoles
        = [2]
    ∧ registry_after_reuse.consoles = 2
    ∧ registry_after_reuse.next 2 = 2
    ∧ registry_walk registry_after_reuse 6 registry_after_reuse.consoles
        = [2, 2, 2, 2, 2, 2]
    ∧ registry_walk (console_bind_ready unassigned_registry 7 1 0).1 4
          (console_bind_ready unassigned_registry 7 1 0).1.consoles
        = [1, 5] := by
  decide

/-! ## Theorems: serial and LAN channels -/

/-- C12: let `ser_bind_ready` accept a connection on descriptor `rv ≥ 0`.
While a peer is active (`con_fd ≥ 0`) the only call is `close(rv)` and the
channel data, `con_fd` included, is unchanged: no registration, no `connected`
notification. Without a peer (`con_fd < 0`, which is -1 in the source) and
with a successful registration the accepted socket becomes `con_fd`, is
registered and the codec is notified if it has a `connected` entry. In every
case a registration of `rv` or a change of `con_fd` implies that there was no
active peer. -/
theorem ser_bind_ready_single_peer (ser : serserv_data) (rv err : Int) (hrv : 0 ≤ rv) :
    (0 ≤ ser.con_fd → ser_bind_ready ser rv err = (ser, [SysCall.close rv]))
    ∧ (ser.con_fd < 0 → err = 0 →
        ser_bind_ready ser rv err
          = ({ ser with con_fd := rv },
              [SysCall.setsockopt_tcp_nodelay rv, SysCall.setsockopt_keepalive rv,
                SysCall.add_fd_to_wait_for rv 0]
              ++ (if ser.has_connected then [SysCall.codec_connected] else [])))
    ∧ (∀ e, SysCall.add_fd_to_wait_for rv e ∈ (ser_bind_ready ser rv err).2 →
        ser.con_fd < 0)
    ∧ (SysCall.codec_connected ∈ (ser_bind_ready ser rv err).2 → ser.con_fd < 0)
    ∧ ((ser_bind_ready ser rv err).1.con_fd ≠ ser.con_fd → ser.con_fd < 0) := by
  have hnrv : ¬ rv < 0 := by omega
  refine ⟨?_, ?_, ?_, ?_, ?_⟩
  · intro hc
    simp [ser_bind_ready, hnrv, hc]
  · intro hc he
    have hnc : ¬ (0 ≤ ser.con_fd) := by omega
    subst he
    simp [ser_bind_ready, hnrv, hnc]
  · intro e hmem
    by_contra hc
    have hc2 : 0 ≤ ser.con_fd := by omega
    simp [ser_bind_ready, hnrv, hc2] at hmem
  · intro hmem
    by_contra hc
    have hc2 : 0 ≤ ser.con_fd := by omega
    simp [ser_bind_ready, hnrv, hc2] at hmem
  · intro hne
    by_contra hc
    have hc2 : 0 ≤ ser.con_fd := by omega
    simp [ser_bind_ready, hnrv, hc2] at hne

/-- Witness for C12: a second connection, accepted on descriptor 11 while the
sample channel has its peer on descriptor 9, is closed at once. -/
theorem ser_bind_ready_single_peer_witness :
    ser_bind_ready sample_ser 11 0 = (sample_ser, [SysCall.close 11]) :=
  (ser_bind_ready_single_peer sample_ser 11 0 (by decide)).1 (by decide)

/-- C13: `ser_data_ready` on a read result `len`. For `len ≤ 0` that is not an
interrupted read (`len < 0` with `errno = EINTR`): the codec is notified of the
disconnect once if it has a `disconnected` entry, the descriptor is taken out
of the reactor and closed, `con_fd` becomes -1, and a connection accepted next
by `ser_bind_ready` is admitted and registered. For an interrupted read nothing
changes and nothing is called. For `len > 0` the buffer and `len` go to
`serserv_handle_data`, once, and the channel data is unchanged. -/
theorem ser_data_ready_cases (ser : serserv_data) (fd : Int) (id : Nat) (len : Int)
    (msgd : List Nat) (errno : Int) :
    (len ≤ 0 → ¬ (len < 0 ∧ errno = EINTR) →
      ser_data_ready ser fd id len msgd errno
        = ({ ser with con_fd := -1 },
            (if ser.has_disconnected then [SysCall.codec_disconnected] else [])
              ++ [SysCall.remove_fd_to_wait_for id, SysCall.close fd])
      ∧ ∀ rv, 0 ≤ rv →
          (ser_bind_ready (ser_data_ready ser fd id len msgd errno).1 rv 0).1.con_fd = rv
          ∧ SysCall.add_fd_to_wait_for rv 0
              ∈ (ser_bind_ready (ser_data_ready ser fd id len msgd errno).1 rv 0).2)
    ∧ (len < 0 → errno = EINTR → ser_data_ready ser fd id len msgd errno = (ser, []))
    ∧ (0 < len →
      ser_data_ready ser fd id len msgd errno
        = (ser, [SysCall.serserv_handle_data msgd len])) := by
  refine ⟨?_, ?_, ?_⟩
  · intro hl hni
    have h1 : ser_data_ready ser fd id len msgd errno
        = ({ ser with con_fd := -1 },
            (if ser.has_disconnected then [SysCall.codec_disconnected] else [])
              ++ [SysCall.remove_fd_to_wait_for id, SysCall.close fd]) := by
      simp only [ser_data_ready, if_pos hl, if_neg hni]
    refine ⟨h1, ?_⟩
    intro rv hrv
    have hnrv : ¬ rv < 0 := by omega
    rw [h1]
    simp [ser_bind_ready, hnrv]
  · intro hl he
    have hl2 : len ≤ 0 := by omega
    simp only [ser_data_ready, if_pos hl2, if_pos (And.intro hl he)]
  · intro hl
    have hl2 : ¬ len ≤ 0 := by omega
    simp only [ser_data_ready, if_neg hl2]

/-- C14: for a received datagram (`len ≥ 0`) the calls of `lan_data_ready` to
the protocol handlers are: exactly one call of `handle_asf`, with the buffer
and the length as received, when `len ≥ 4`, byte 0 is 6 and byte 3 is 6;
exactly one call of `ipmi_handle_lan_msg`, with the same arguments, when
`len ≥ 4`, byte 0 is 6 and byte 3 is 7; and none otherwise. -/
theorem lan_data_ready_dispatch (lan_fd : Int) (debug_raw : Bool) (len : Int)
    (msgd from_addr : List Nat) (errno : Int) (hlen : 0 ≤ len) :
    lan_handler_calls (lan_data_ready lan_fd debug_raw len msgd from_addr errno)
      = if 4 ≤ len ∧ msgd.getD 0 0 = 6 ∧ msgd.getD 3 0 = 6 then
          [SysCall.handle_asf msgd len from_addr lan_fd]
        else if 4 ≤ len ∧ msgd.getD 0 0 = 6 ∧ msgd.getD 3 0 = 7 then
          [SysCall.ipmi_handle_lan_msg msgd len from_addr lan_fd]
        else [] := by
  have hn : ¬ len < 0 := by omega
  simp only [lan_data_ready, if_neg hn]
  generalize msgd.getD 0 0 = b0
  generalize msgd.getD 3 0 = b3
  by_cases h4 : len < 4
  · have h4n : ¬ 4 ≤ len := by omega
    cases debug_raw <;> simp [h4, h4n, lan_handler_calls]
  · have h4p : 4 ≤ len := by omega
    by_cases h0 : b0 = 6
    · by_cases h36 : b3 = 6
      · cases debug_raw <;> simp [h4, h4p, h0, h36, lan_handler_calls]
      · by_cases h37 : b3 = 7
        · cases debug_raw <;> simp [h4, h4p, h0, h37, lan_handler_calls]
        · cases debug_raw <;> simp [h4, h4p, h0, h36, h37, lan_handler_calls]
    · cases debug_raw <;> simp [h4, h4p, h0, lan_handler_calls]

/-- Witness for C14: a five-byte datagram with version 6 and class 7, received
on descriptor 3 from the address 10.0.0.1, goes to `ipmi_handle_lan_msg` and
only there. -/
theorem lan_data_ready_dispatch_witness :
    lan_handler_calls
        (lan_data_ready 3 false 5 (recv_buffer [6, 0, 255, 7, 1]) [10, 0, 0, 1] 0)
      = [SysCall.ipmi_handle_lan_msg (recv_buffer [6, 0, 255, 7, 1]) 5 [10, 0, 0, 1] 3] := by
  have h := lan_data_ready_dispatch 3 false 5 (recv_buffer [6, 0, 255, 7, 1]) [10, 0, 0, 1] 0
    (by decide)
  rw [h, if_neg (by decide), if_pos (by decide)]

/-- C15: `lan_send` with a `NULL` destination makes no call at all, whatever
the data vectors; with a destination it makes exactly one `sendmsg`, on the
`xmit_fd` of the destination, to its address, with the vectors given. -/
theorem lan_send_null_suppressed (data : List (List Nat)) (vecs : Int) :
    lan_send data vecs none = []
    ∧ ∀ l : sim_addr,
        lan_send data vecs (some l)
          = [SysCall.sendmsg l.xmit_fd l.addr l.addr_len data vecs] :=
  ⟨rfl, fun _ => rfl⟩

/-- C19 as stated fails: when `recvfrom` fails with an errno other than `EINTR`
(here 111, connection refused), `lan_data_ready` prints a diagnostic and
calls `exit(1)`: the process is terminated inside the callback. -/
theorem lan_data_ready_recv_error_exits :
    lan_data_ready 3 false (-1) (recv_buffer []) [] 111
      = [SysCall.perror "Error receiving message", SysCall.exit 1] := by
  decide

/-- C19 as amended: when the receive fails (`len < 0`), no protocol handler is
called; if the call was interrupted (`errno = EINTR`) the callback makes no
call at all and returns to the reactor; for any other errno it prints the
diagnostic "Error receiving message" and terminates the process with
`exit(1)`. -/
theorem lan_data_ready_recv_failure (lan_fd : Int) (debug_raw : Bool) (len : Int)
    (msgd from_addr : List Nat) (errno : Int) (hlen : len < 0) :
    lan_handler_calls (lan_data_ready lan_fd debug_raw len msgd from_addr errno) = []
    ∧ (errno = EINTR → lan_data_ready lan_fd debug_raw len msgd from_addr errno = [])
    ∧ (errno ≠ EINTR →
        lan_data_ready lan_fd debug_raw len msgd from_addr errno
          = [SysCall.perror "Error receiving message", SysCall.exit 1]) := by
  by_cases he : errno = EINTR
  · simp [lan_data_ready, hlen, he, lan_handler_calls]
  · simp [lan_data_ready, hlen, he, lan_handler_calls]

/-- Witness for the amended C19: an interrupted receive on descriptor 3. -/
theorem lan_data_ready_recv_failure_witness :
    lan_data_ready 3 false (-1) (recv_buffer []) [] EINTR = [] :=
  (lan_data_ready_recv_failure 3 false (-1) (recv_buffer []) [] EINTR (by decide)).2.1 rfl

/-! ## Theorems: condition variable -/

/-- C16, what the code does: with now = (10, 500000) and timeout = (1, 500000)
the microsecond parts add up to exactly one second; the loop of
`cond_timedwait` tests `>` and does not carry, so the wake time is
(11, 1000000000), with a nanosecond part that is not below one second. The
loop of `start_timer`, which tests `>=`, carries on the same input and gives
(12, 0). -/
theorem cond_timedwait_full_second_not_carried :
    cond_timedwait_abstime { tv_sec := 10, tv_usec := 500000 }
        { tv_sec := 1, tv_usec := 500000 }
      = { tv_sec := 11, tv_nsec := 1000000000 }
    ∧ start_timer_loop (10 + 1) (500000 + 500000) = (12, 0) := by
  constructor
  · have e : cond_timedwait_loop 11 1000000000 = (11, 1000000000) := by
      rw [cond_timedwait_loop, if_neg (by decide)]
    simp [cond_timedwait_abstime, e]
  · have e : start_timer_loop 11 1000000 = (12, 0) := by
      rw [start_timer_loop, if_pos (by decide), start_timer_loop, if_neg (by decide)]
      rfl
    simpa using e

/-! ## Theorems: console line editing and console accept -/

/-- The function `handle_telnet` hands back either 0 or the IAC byte. -/
theorem handle_telnet_ret (info : console_info) (c : Nat) :
    (handle_telnet info c).1 = 0 ∨ (handle_telnet info c).1 = TN_IAC := by
  unfold handle_telnet
  simp only []
  split_ifs <;>
    simp [handle_telnet_cmd_done, handle_telnet_send_wont, handle_telnet_send_dont]

/-- The label `handle_char` always ends with `return 0`. -/
theorem handle_user_char_handle_char_ret (info : console_info) (c : Nat)
    (ev : List ConsoleEvent) : (handle_user_char_handle_char info c ev).1 = 0 := by
  unfold handle_user_char_handle_char
  split <;> rfl

/-- C18: backspace (8) or delete (127) on an Idle session. On a non-empty line
the call returns 0, takes one off the cursor, leaves the buffer and every other
field as they are, and writes the erase sequence backspace, blank, backspace
exactly when echo is on. On an empty line it returns 0, changes nothing and
writes nothing. In neither case is anything passed to the interpreter. -/
theorem backspace_erases_one (info : console_info) (c : Nat) (hc : c = 8 ∨ c = 127)
    (hidle : info.tn_pos = 0) :
    (0 < info.pos →
      handle_user_char info c
        = (0, { info with pos := info.pos - 1 },
            if info.echo ≠ 0 then [ConsoleEvent.write info.outfd [8, 32, 8]] else []))
    ∧ (info.pos = 0 → handle_user_char info c = (0, info, []))
    ∧ emu_cmds (handle_user_char info c).2.2 = [] := by
  have h1 : 0 < info.pos →
      handle_user_char info c
        = (0, { info with pos := info.pos - 1 },
            if info.echo ≠ 0 then [ConsoleEvent.write info.outfd [8, 32, 8]] else []) := by
    intro hp
    rcases hc with h | h <;> subst h <;> simp [handle_user_char, hidle, hp, TN_IAC]
  have h2 : info.pos = 0 → handle_user_char info c = (0, info, []) := by
    intro hp
    rcases hc with h | h <;> subst h <;> simp [handle_user_char, hidle, hp, TN_IAC]
  refine ⟨h1, h2, ?_⟩
  by_cases hp : info.pos = 0
  · rw [h2 hp]
    rfl
  · rw [h1 (by omega)]
    by_cases he : info.echo = 0 <;> simp [he, emu_cmds]

/-- Witness for C18: a delete byte after the letter `a` on the sample
session. -/
theorem backspace_erases_one_witness :
    (handle_user_char (feed_chars sample_console [97]) 127).1 = 0
    ∧ (handle_user_char (feed_chars sample_console [97]) 127).2.1.pos = 0
    ∧ (handle_user_char (feed_chars sample_console [97]) 127).2.2
        = [ConsoleEvent.write 5 [8, 32, 8]] := by
  have h := (backspace_erases_one (feed_chars sample_console [97]) 127 (Or.inr rfl)
    (by decide)).1 (by decide)
  rw [h]
  exact ⟨rfl, by decide, by decide⟩

/-- A return value that is 0 in a situation where the condition fails. -/
theorem ret_zero_case (x : Int) (P : Prop) (hx : x = 0) (hP : ¬ P) :
    (x = 1 ↔ P) ∧ (x = 0 ∨ x = 1) := by
  subst hx
  exact ⟨⟨fun h => by simp at h, fun h => absurd h hP⟩, Or.inl rfl⟩

/-- C17: `handle_user_char` returns 1 exactly when the byte is 4, the
sub-machine is Idle and the line is empty; in every other case it returns 0.
A byte 4 on an Idle session with a non-empty line changes nothing at all and
causes no write and no interpreter call. -/
theorem handle_user_char_terminates_iff (info : console_info) (c : Nat) :
    ((handle_user_char info c).1 = 1 ↔ (c = 4 ∧ info.tn_pos = 0 ∧ info.pos = 0))
    ∧ ((handle_user_char info c).1 = 0 ∨ (handle_user_char info c).1 = 1)
    ∧ (info.tn_pos = 0 → info.pos ≠ 0 → handle_user_char info 4 = (0, info, [])) := by
  have h3 : info.tn_pos = 0 → info.pos ≠ 0 → handle_user_char info 4 = (0, info, []) := by
    intro hidle hp
    simp [handle_user_char, hidle, hp, TN_IAC]
  have hr : ∀ r : Nat × console_info × List ConsoleEvent,
      r = (if info.tn_pos ≠ 0 then handle_telnet info c else (c, info, [])) →
      (r.1 = 4 ↔ (c = 4 ∧ info.tn_pos = 0)) ∧ r.2.1.pos = info.pos := by
    intro r hr
    subst hr
    by_cases ht : info.tn_pos = 0
    · simp [ht]
    · have hne : info.tn_pos ≠ 0 := ht
      rw [if_pos hne]
      refine ⟨?_, (handle_telnet_line info c).2⟩
      rcases handle_telnet_ret info c with h | h <;> rw [h] <;> simp [ht, TN_IAC]
  have key : ((handle_user_char info c).1 = 1 ↔ (c = 4 ∧ info.tn_pos = 0 ∧ info.pos = 0))
      ∧ ((handle_user_char info c).1 = 0 ∨ (handle_user_char info c).1 = 1) := by
    unfold handle_user_char
    generalize (if info.tn_pos ≠ 0 then handle_telnet info c else (c, info, [])) = r at hr
    obtain ⟨h4, hp⟩ := hr r rfl
    obtain ⟨c1, info1, ev⟩ := r
    simp only at h4 hp ⊢
    have hno : c1 ≠ 4 → ¬ (c = 4 ∧ info.tn_pos = 0 ∧ info.pos = 0) :=
      fun hne h => hne (h4.mpr ⟨h.1, h.2.1⟩)
    by_cases h0 : c1 = 0
    · rw [if_pos h0]
      exact ret_zero_case _ _ rfl (hno (by omega))
    rw [if_neg h0]
    by_cases h1 : c1 = TN_IAC
    · have hne4 : c1 ≠ 4 := by
        rw [h1]
        decide
      rw [if_pos h1]
      by_cases h2 : info1.telnet ≠ 0
      · rw [if_pos h2]
        exact ret_zero_case _ _ rfl (hno hne4)
      · rw [if_neg h2]
        exact ret_zero_case _ _ (handle_user_char_handle_char_ret _ _ _) (hno hne4)
    rw [if_neg h1]
    by_cases h3 : c1 = 8 ∨ c1 = 127
    · rw [if_pos h3]
      by_cases h5 : info1.pos > 0
      · rw [if_pos h5]
        exact ret_zero_case _ _ rfl (hno (by omega))
      · rw [if_neg h5]
        exact ret_zero_case _ _ rfl (hno (by omega))
    rw [if_neg h3]
    by_cases h6 : c1 = 4
    · obtain ⟨hc4, hidle⟩ := h4.mp h6
      rw [if_pos h6]
      by_cases h7 : info1.pos = 0
      · rw [if_pos h7]
        exact ⟨⟨fun _ => ⟨hc4, hidle, by rw [← hp]; exact h7⟩, fun _ => rfl⟩, Or.inr rfl⟩
      · rw [if_neg h7]
        exact ret_zero_case _ _ rfl (fun h => h7 (by rw [hp]; exact h.2.2))
    rw [if_neg h6]
    by_cases h8 : c1 = 10 ∨ c1 = 13
    · rw [if_pos h8]
      exact ret_zero_case _ _ rfl (hno h6)
    · rw [if_neg h8]
      exact ret_zero_case _ _ (handle_user_char_handle_char_ret _ _ _) (hno h6)
  exact ⟨key.1, key.2, h3⟩

/-- C20, what the code does. The registry holds one session, record 1. A
connection is accepted on descriptor 7 and gets record 2. When `malloc` fails
(record `NULL`) the socket gets the text "Out of memory", is closed, and the
registry is untouched. When the registration fails (`add_fd` returns `ENOMEM`,
as it does when its own `malloc` fails) the socket gets the error text, is
closed and record 2 is freed, but the callback goes on: the freed record 2
becomes the head of the registry, the back link of record 1 is set to it, and
the Telnet greeting and the prompt are written to the closed descriptor. -/
theorem console_bind_ready_add_fd_failure :
    (add_fd 7 0 0).1 = ENOMEM
    ∧ (console_bind_ready (reg_run (empty_registry (fun _ => 0)) [RegistryOp.accept 1])
          7 0 0).2
        = [SysCall.write 7 (str_bytes "Out of memory\n"), SysCall.close 7]
    ∧ (console_bind_ready (reg_run (empty_registry (fun _ => 0)) [RegistryOp.accept 1])
          7 0 0).1.consoles = 1
    ∧ (console_bind_ready (reg_run (empty_registry (fun _ => 0)) [RegistryOp.accept 1])
          7 2 ENOMEM).2
        = [SysCall.setsockopt_tcp_nodelay 7, SysCall.setsockopt_keepalive 7,
            SysCall.add_fd_to_wait_for 7 ENOMEM,
            SysCall.write 7 (str_bytes "Unable to add socket wait\n"),
            SysCall.close 7, SysCall.free 2,
            SysCall.write 7 telnet_init_seq, SysCall.write 7 [62, 32]]
    ∧ (console_bind_ready (reg_run (empty_registry (fun _ => 0)) [RegistryOp.accept 1])
          7 2 ENOMEM).1.consoles = 2
    ∧ (console_bind_ready (reg_run (empty_registry (fun _ => 0)) [RegistryOp.accept 1])
          7 2 ENOMEM).1.prev 1 = 2
    ∧ registry_walk
          (console_bind_ready (reg_run (empty_registry (fun _ => 0)) [RegistryOp.accept 1])
            7 2 ENOMEM).1 3 2
        = [2, 1] := by
  decide

/-! ## Theorems: periodic tick -/

/-- The channel loop of `tick` calls `ipmi_lan_tick` with 1 once for each
configured LAN channel, in slot order, and makes no other call. -/
theorem tick_channels_eq (lan_medium : Int) (channels : List (Option channel)) :
    tick_channels lan_medium channels
      = (lan_chan_infos lan_medium channels).map (fun ci => TickCall.ipmi_lan_tick ci 1) := by
  induction channels with
  | nil => rfl
  | cons slot chans ih =>
    cases slot with
    | none =>
      simp only [tick_channels, ih, lan_chan_infos, List.filterMap_cons]
    | some chan =>
      by_cases hm : chan.medium_type = lan_medium
      · simp only [tick_channels, ih, lan_chan_infos, List.filterMap_cons, hm, if_true,
          List.map_cons, List.singleton_append]
      · simp only [tick_channels, ih, lan_chan_infos, List.filterMap_cons, hm, if_false,
          List.nil_append]

/-- The carry loop of `start_timer` leaves a microsecond part below one million
as it is. -/
theorem start_timer_loop_small (sec usec : Int) (h : usec < 1000000) :
    start_timer_loop sec usec = (sec, usec) := by
  rw [start_timer_loop, if_neg (by omega)]

/-- C21: one expiry of the periodic timer, for a current time (s, u) with
u < 1000000, any channel table and any state of the handle. The re-arm
inside `tick` passes the running check of `start_timer` (the flag was cleared
by `timer_handler`): it returns what the selector call returns for the
deadline (s + 1, u), that is for the relative timeout (1 s, 0 us), on the same
handle. Afterwards the running flag is 1 and the stored callback and context
are still `tick` and its data. When the selector call succeeds, `tick` returns
and its calls are exactly: `ipmi_lan_tick` with 1 once for each configured LAN
channel and for no other channel, then `ipmi_emu_tick` with 1, once. When the
selector call fails, the same calls are followed by the diagnostic and
`exit(1)`. -/
theorem periodic_tick_rearms {σ : Type} (sel_start_timer : σ → timeval → Int × σ)
    (now : timeval) (lan_medium : Int) (channels : List (Option channel))
    (timer_data : os_hnd_timer_id σ) (hu1 : now.tv_usec < 1000000) :
    (start_timer sel_start_timer now (timer_handler timer_data).2
        { tv_sec := 1, tv_usec := 0 } timer_data.timed_out timer_data.cb_data).1
      = (sel_start_timer timer_data.timer
          { tv_sec := now.tv_sec + 1, tv_usec := now.tv_usec }).1
    ∧ (timer_expiry sel_start_timer now lan_medium channels timer_data).1
      = { cb_data := timer_data.cb_data, timed_out := timer_data.timed_out,
          timer := (sel_start_timer timer_data.timer
            { tv_sec := now.tv_sec + 1, tv_usec := now.tv_usec }).2,
          running := 1 }
    ∧ ((sel_start_timer timer_data.timer
          { tv_sec := now.tv_sec + 1, tv_usec := now.tv_usec }).1 = 0 →
        (timer_expiry sel_start_timer now lan_medium channels timer_data).2
          = (lan_chan_infos lan_medium channels).map (fun ci => TickCall.ipmi_lan_tick ci 1)
            ++ [TickCall.ipmi_emu_tick 1])
    ∧ ((sel_start_timer timer_data.timer
          { tv_sec := now.tv_sec + 1, tv_usec := now.tv_usec }).1 ≠ 0 →
        (timer_expiry sel_start_timer now lan_medium channels timer_data).2
          = (lan_chan_infos lan_medium channels).map (fun ci => TickCall.ipmi_lan_tick ci 1)
            ++ [TickCall.ipmi_emu_tick 1]
            ++ [TickCall.fprintf_stderr "Unable to start timer: 0x%x\n"
                  (sel_start_timer timer_data.timer
                    { tv_sec := now.tv_sec + 1, tv_usec := now.tv_usec }).1,
                TickCall.exit 1]) := by
  have hloop : start_timer_loop (now.tv_sec + 1) (now.tv_usec + 0)
      = (now.tv_sec + 1, now.tv_usec) := by
    rw [Int.add_zero]
    exact start_timer_loop_small _ _ hu1
  have hstart : start_timer sel_start_timer now (timer_handler timer_data).2
        { tv_sec := 1, tv_usec := 0 } timer_data.timed_out timer_data.cb_data
      = ((sel_start_timer timer_data.timer
            { tv_sec := now.tv_sec + 1, tv_usec := now.tv_usec }).1,
          { cb_data := timer_data.cb_data, timed_out := timer_data.timed_out,
            timer := (sel_start_timer timer_data.timer
              { tv_sec := now.tv_sec + 1, tv_usec := now.tv_usec }).2,
            running := 1 }) := by
    simp only [start_timer, timer_handler, hloop]
    simp
  have hexp : timer_expiry sel_start_timer now lan_medium channels timer_data
      = tick sel_start_timer now lan_medium channels (timer_handler timer_data).2
          timer_data.timed_out timer_data.cb_data := rfl
  refine ⟨by rw [hstart], ?_, ?_, ?_⟩
  · rw [hexp]
    simp only [tick, hstart]
    split <;> rfl
  · intro h0
    rw [hexp]
    simp only [tick, hstart, tick_channels_eq]
    rw [if_neg (by simpa using h0)]
  · intro h0
    rw [hexp]
    simp only [tick, hstart, tick_channels_eq]
    rw [if_pos h0]

/-- Witness for C21: the sample periodic timer expires at time (20, 0) with
the sample channel table; the two LAN channels and the engine are ticked, and
the timer is armed again for (21, 0) with the running flag set. -/
theorem periodic_tick_rearms_witness :
    timer_expiry sample_sel_start_timer { tv_sec := 20, tv_usec := 0 } 4 sample_channels
        sample_periodic_timer
      = ({ cb_data := 4, timed_out := 3, timer := some { tv_sec := 21, tv_usec := 0 },
           running := 1 },
         [TickCall.ipmi_lan_tick 100 1, TickCall.ipmi_lan_tick 300 1,
           TickCall.ipmi_emu_tick 1]) := by
  have h := periodic_tick_rearms sample_sel_start_timer { tv_sec := 20, tv_usec := 0 } 4
    sample_channels sample_periodic_timer (by decide)
  exact Prod.ext h.2.1 (h.2.2.1 rfl)

/-! ## Theorems: console session well-formedness -/

/-- The function `handle_telnet` leaves a sub-machine position of at most 3; it
never changes the Telnet flag or the size of `tn_buf`. -/
theorem handle_telnet_wf (info : console_info) (c : Nat) :
    (handle_telnet info c).2.1.tn_pos ≤ 3
    ∧ (handle_telnet info c).2.1.telnet = info.telnet
    ∧ (handle_telnet info c).2.1.tn_buf.length = info.tn_buf.length := by
  unfold handle_telnet
  simp only []
  split_ifs <;>
    (refine ⟨?_, ?_, ?_⟩ <;>
      simp [handle_telnet_cmd_done, handle_telnet_send_wont, handle_telnet_send_dont] <;>
      omega)

/-- The label `handle_char` touches neither the sub-machine nor the Telnet flag
nor the size of the line buffer. -/
theorem handle_user_char_handle_char_frame (info : console_info) (c : Nat)
    (ev : List ConsoleEvent) :
    (handle_user_char_handle_char info c ev).2.1.telnet = info.telnet
    ∧ (handle_user_char_handle_char info c ev).2.1.buffer.length = info.buffer.length
    ∧ (handle_user_char_handle_char info c ev).2.1.tn_buf.length = info.tn_buf.length
    ∧ (handle_user_char_handle_char info c ev).2.1.tn_pos = info.tn_pos
    ∧ (handle_user_char_handle_char info c ev).2.1.tn_buf = info.tn_buf := by
  unfold handle_user_char_handle_char
  by_cases hfull : info.pos ≥ 1023
  · rw [if_pos hfull]
    exact ⟨rfl, rfl, rfl, rfl, rfl⟩
  · rw [if_neg hfull]
    exact ⟨rfl, by simp, rfl, rfl, rfl⟩

/-- The label `handle_char` keeps the cursor at most 1023. -/
theorem handle_user_char_handle_char_pos (info : console_info) (c : Nat)
    (ev : List ConsoleEvent) (hpos : info.pos ≤ 1023) :
    (handle_user_char_handle_char info c ev).2.1.pos ≤ 1023 := by
  unfold handle_user_char_handle_char
  by_cases hfull : info.pos ≥ 1023
  · rw [if_pos hfull]
    exact hpos
  · rw [if_neg hfull]
    simp only
    omega

/-- What one call of `handle_user_char` does to the fields that make a session
well formed, in terms of the session `t` that the Telnet step hands on: the
Telnet flag and the array sizes are kept, the cursor stays at most 1023, the
sub-machine position is kept or, on a session with Telnet on, set to 1, and
with Telnet off `tn_buf` is kept. -/
theorem handle_user_char_fields (info : console_info) (c : Nat) :
    ∀ t : Nat × console_info × List ConsoleEvent,
      t = (if info.tn_pos ≠ 0 then handle_telnet info c else (c, info, [])) →
      (handle_user_char info c).2.1.telnet = t.2.1.telnet
      ∧ (handle_user_char info c).2.1.buffer.length = t.2.1.buffer.length
      ∧ (handle_user_char info c).2.1.tn_buf.length = t.2.1.tn_buf.length
      ∧ (t.2.1.pos ≤ 1023 → (handle_user_char info c).2.1.pos ≤ 1023)
      ∧ ((handle_user_char info c).2.1.tn_pos = t.2.1.tn_pos
          ∨ (t.2.1.telnet ≠ 0 ∧ (handle_user_char info c).2.1.tn_pos = 1))
      ∧ (t.2.1.telnet = 0 → (handle_user_char info c).2.1.tn_buf = t.2.1.tn_buf) := by
  intro t ht
  unfold handle_user_char
  rw [← ht]
  obtain ⟨c1, info1, ev⟩ := t
  simp only
  by_cases h0 : c1 = 0
  · rw [if_pos h0]
    exact ⟨rfl, rfl, rfl, fun h => h, Or.inl rfl, fun _ => rfl⟩
  rw [if_neg h0]
  by_cases h1 : c1 = TN_IAC
  · rw [if_pos h1]
    by_cases h2 : info1.telnet ≠ 0
    · rw [if_pos h2]
      exact ⟨rfl, rfl, by simp, fun h => h, Or.inr ⟨h2, rfl⟩, fun h => absurd h h2⟩
    · rw [if_neg h2]
      obtain ⟨f1, f2, f3, f4, f5⟩ := handle_user_char_handle_char_frame info1 c1 ev
      exact ⟨f1, f2, f3, handle_user_char_handle_char_pos info1 c1 ev, Or.inl f4,
        fun _ => f5⟩
  rw [if_neg h1]
  by_cases h3 : c1 = 8 ∨ c1 = 127
  · rw [if_pos h3]
    by_cases h4 : info1.pos > 0
    · rw [if_pos h4]
      exact ⟨rfl, rfl, rfl, fun h => by simp only; omega, Or.inl rfl, fun _ => rfl⟩
    · rw [if_neg h4]
      exact ⟨rfl, rfl, rfl, fun h => h, Or.inl rfl, fun _ => rfl⟩
  rw [if_neg h3]
  by_cases h5 : c1 = 4
  · rw [if_pos h5]
    by_cases h6 : info1.pos = 0
    · rw [if_pos h6]
      exact ⟨rfl, rfl, rfl, fun h => h, Or.inl rfl, fun _ => rfl⟩
    · rw [if_neg h6]
      exact ⟨rfl, rfl, rfl, fun h => h, Or.inl rfl, fun _ => rfl⟩
  rw [if_neg h5]
  by_cases h7 : c1 = 10 ∨ c1 = 13
  · rw [if_pos h7]
    exact ⟨rfl, by simp, rfl, fun _ => by simp, Or.inl rfl, fun _ => rfl⟩
  · rw [if_neg h7]
    obtain ⟨f1, f2, f3, f4, f5⟩ := handle_user_char_handle_char_frame info1 c1 ev
    exact ⟨f1, f2, f3, handle_user_char_handle_char_pos info1 c1 ev, Or.inl f4,
      fun _ => f5⟩

/-- C22: from any session with `pos ≤ 1023`, `tn_pos ≤ 3` and `tn_pos = 0`
whenever Telnet is off, any byte leaves a session with the same three
properties. The index of a store into `buffer[pos]` is therefore below the
1024 bytes of the buffer, and the terminating NUL of a carriage return or
linefeed does land in the buffer at `pos`; the index of a store into
`tn_buf[tn_pos]` is below the 4 bytes of `tn_buf`; and both arrays keep their
size. A session with Telnet off stays out of the sub-machine (`tn_pos` stays 0
and `tn_buf` is untouched): an IAC byte is handled by the `handle_char` label
like any data byte, so on a line that is not full it is appended at `pos`. -/
theorem console_wf_invariant (info : console_info) (c : Nat)
    (hpos : info.pos ≤ 1023) (htp : info.tn_pos ≤ 3)
    (htel : info.telnet = 0 → info.tn_pos = 0) :
    ((handle_user_char info c).2.1.pos ≤ 1023
      ∧ (handle_user_char info c).2.1.tn_pos ≤ 3
      ∧ ((handle_user_char info c).2.1.telnet = 0 →
          (handle_user_char info c).2.1.tn_pos = 0))
    ∧ (info.buffer.length = 1024 →
        info.pos < info.buffer.length
        ∧ (handle_user_char info c).2.1.buffer.length = 1024
        ∧ (info.tn_pos = 0 → c = 10 ∨ c = 13 →
            (handle_user_char info c).2.1.buffer.getD info.pos 1 = 0))
    ∧ (info.tn_buf.length = 4 →
        info.tn_pos < info.tn_buf.length
        ∧ (handle_user_char info c).2.1.tn_buf.length = 4)
    ∧ (info.telnet = 0 →
        (handle_user_char info c).2.1.tn_pos = 0
        ∧ (handle_user_char info c).2.1.tn_buf = info.tn_buf
        ∧ (c = TN_IAC →
            handle_user_char info c = handle_user_char_handle_char info TN_IAC [])
        ∧ (c = TN_IAC → info.pos < 1023 →
            handle_user_char info c
              = (0, { info with buffer := info.buffer.set info.pos TN_IAC,
                                pos := info.pos + 1 },
                  if info.echo ≠ 0 then [ConsoleEvent.write info.outfd [TN_IAC]]
                  else []))) := by
  obtain ⟨g1, g2, g3, g4, g5, g6⟩ := handle_user_char_fields info c _ rfl
  have hiac : info.telnet = 0 → c = TN_IAC →
      handle_user_char info c = handle_user_char_handle_char info TN_IAC [] := by
    intro h0 hc
    have hi := htel h0
    subst hc
    simp [handle_user_char, hi, h0, TN_IAC]
  by_cases hi : info.tn_pos = 0
  · have hne : ¬ (info.tn_pos ≠ 0) := fun h => h hi
    rw [if_neg hne] at g1 g2 g3 g4 g5 g6
    simp only at g1 g2 g3 g4 g5 g6
    have htp2 : (handle_user_char info c).2.1.tn_pos ≤ 3 := by
      rcases g5 with h | ⟨_, h⟩ <;> omega
    have htel2 : (handle_user_char info c).2.1.telnet = 0 →
        (handle_user_char info c).2.1.tn_pos = 0 := by
      intro h
      rw [g1] at h
      rcases g5 with h5 | ⟨h5, _⟩
      · rw [h5]
        exact hi
      · exact absurd h h5
    refine ⟨⟨g4 hpos, htp2, htel2⟩, ?_, ?_, ?_⟩
    · intro hlen
      refine ⟨by omega, by rw [g2]; exact hlen, ?_⟩
      intro _ hc
      have hl : info.pos < info.buffer.length := by omega
      rcases hc with h | h <;> subst h <;>
        simp [handle_user_char, hi, TN_IAC, List.getD_eq_getElem?_getD,
          List.getElem?_set_self hl]
    · intro hlen
      exact ⟨by omega, by rw [g3]; exact hlen⟩
    · intro h0
      refine ⟨htel2 (by rw [g1]; exact h0), g6 h0, hiac h0, ?_⟩
      intro hc hlt
      have hnf : ¬ (info.pos ≥ 1023) := by omega
      rw [hiac h0 hc]
      simp only [handle_user_char_handle_char, if_neg hnf, List.nil_append]
  · have hne : info.tn_pos ≠ 0 := hi
    have hton : info.telnet ≠ 0 := fun h => hi (htel h)
    rw [if_pos hne] at g1 g2 g3 g4 g5 g6
    obtain ⟨w1, w2, w3⟩ := handle_telnet_wf info c
    obtain ⟨l1, l2⟩ := handle_telnet_line info c
    have htp2 : (handle_user_char info c).2.1.tn_pos ≤ 3 := by
      rcases g5 with h | ⟨_, h⟩ <;> omega
    have htel2 : (handle_user_char info c).2.1.telnet = 0 →
        (handle_user_char info c).2.1.tn_pos = 0 := by
      intro h
      rw [g1, w2] at h
      exact absurd h hton
    refine ⟨⟨g4 (by rw [l2]; exact hpos), htp2, htel2⟩, ?_, ?_, ?_⟩
    · intro hlen
      refine ⟨by omega, by rw [g2, l1]; exact hlen, ?_⟩
      intro h _
      exact absurd h hi
    · intro hlen
      exact ⟨by omega, by rw [g3, w3]; exact hlen⟩
    · intro h0
      exact absurd h0 hton

/-- Witness for C22: the console on standard input and output as `main` sets
it up (Telnet off, descriptor 1) receives an IAC byte on an empty line: the
byte is appended as data and the sub-machine stays Idle. -/
theorem console_wf_invariant_witness :
    handle_user_char { sample_console with telnet := 0, outfd := 1 } TN_IAC
      = (0, { sample_console with
                telnet := 0, outfd := 1,
                buffer := sample_console.buffer.set 0 TN_IAC, pos := 1 },
          [ConsoleEvent.write 1 [TN_IAC]]) :=
  (console_wf_invariant { sample_console with telnet := 0, outfd := 1 } TN_IAC
    (by decide) (by decide) (by decide)).2.2.2 rfl |>.2.2.2 rfl (by decide)

end OpenIPMI
